import Mathlib

/-!
# The `wasd-controls` component (`src/components/wasd-controls.js`)

A shallow embedding of the component and theorems about its per-frame update.

Modelling conventions.

* JavaScript numbers are exact rationals (`ℚ`): every arithmetic step of the source is kept,
  rounding is not modelled.
* An axis name (`'x'`, `'y'`, `'z'`, the `oneOf` of the schema) is a constructor of `Axis`, and
  `velocity[axis]` is `Vector3.get` / `Vector3.set`.
* `this.keys` is an association list from property name to boolean, the own properties of
  the object: an absent name reads as `undefined`, which is falsy. The names `update` reads
  are not names of `Object.prototype`, whose properties are not read here. An assignment to
  the name `__proto__` reaches the accessor of `Object.prototype` and creates no property.
* What the component takes from outside the file is an argument: the two clocks (`Date.now()`
  and `window.performance.now()`), `shouldCaptureKeyEvent`, `KEYCODE_TO_CODE`, and the two
  three.js operations `THREE.Math.degToRad` and `Vector3.applyEuler`.
* The entity `this.el` is reduced to what the component reads and writes: its computed
  `position`, its computed `rotation` (absent when not resolved) and the list of local-axis
  translation calls sent to `el.object3D`.
-/

namespace WasdControls

/-! ## Data model -/

/-- One of the three axis names allowed by the schema for `wsAxis` and `adAxis`. -/
inductive Axis where
  | x
  | y
  | z
deriving DecidableEq, Repr

/-- The three numeric components of a `THREE.Vector3`. -/
structure Vector3 where
  x : ℚ
  y : ℚ
  z : ℚ
deriving DecidableEq, Repr

namespace Vector3

/-- Reading `v[axis]`. -/
def get (v : Vector3) : Axis → ℚ
  | Axis.x => v.x
  | Axis.y => v.y
  | Axis.z => v.z

/-- Writing `v[axis] = q`. -/
def set (v : Vector3) (a : Axis) (q : ℚ) : Vector3 :=
  match a with
  | Axis.x => { v with x := q }
  | Axis.y => { v with y := q }
  | Axis.z => { v with z := q }

/-- `Vector3.multiplyScalar`. -/
def multiplyScalar (v : Vector3) (s : ℚ) : Vector3 :=
  ⟨v.x * s, v.y * s, v.z * s⟩

end Vector3

/-- The fields of a `THREE.Euler`: three angles in radians and the rotation order. -/
structure Euler where
  x : ℚ
  y : ℚ
  z : ℚ
  order : String
deriving DecidableEq, Repr

/-- `Euler.set(x, y, z)` called without an order: the order of the object is kept. -/
def Euler.set (e : Euler) (x y z : ℚ) : Euler :=
  { e with x := x, y := y, z := z }

/-- The component data declared by `schema`. -/
structure Data where
  easing : ℚ
  acceleration : ℚ
  enabled : Bool
  fly : Bool
  wsAxis : Axis
  adAxis : Axis
  wsInverted : Bool
  wsEnabled : Bool
  adInverted : Bool
  adEnabled : Bool
deriving DecidableEq, Repr

/-- The defaults of `schema`. -/
def schemaDefaults : Data where
  easing := 20
  acceleration := 65
  enabled := true
  fly := false
  wsAxis := Axis.z
  adAxis := Axis.x
  wsInverted := false
  wsEnabled := true
  adInverted := false
  adEnabled := true

/-- The constant `MAX_DELTA = 0.2`. -/
def MAX_DELTA : ℚ := 2 / 10

/-- The object `this.keys`: property names with the boolean stored under each, in insertion
order. -/
abbrev Keys := List (String × Bool)

namespace Keys

/-- The truthiness of `keys[name]`: `true` only when the name is present with value `true`
(an absent name reads as `undefined`). -/
def truthy (keys : Keys) (name : String) : Bool :=
  match keys.lookup name with
  | some b => b
  | none => false

/-- Storing `b` in the own property `name`: an existing property is overwritten in place, a
new one is appended. -/
def store : Keys → String → Bool → Keys
  | [], name, b => [(name, b)]
  | (n, v) :: rest, name, b =>
      if n = name then (name, b) :: rest else (n, v) :: store rest name b

/-- The assignment `keys[name] = b` on an object created by `{}`. For the name `__proto__`
the assignment calls the setter inherited from `Object.prototype`, which ignores a boolean:
nothing is stored. For every other name the own property is written (the inherited
properties of `Object.prototype` other than `__proto__` are writable data properties, so
the assignment creates an own property). -/
def assign (keys : Keys) (name : String) (b : Bool) : Keys :=
  if name = "__proto__" then keys else store keys name b

end Keys

/-- What the handlers read from a keyboard event: `event.code` (absent in browsers that do not
provide it) and the legacy numeric `event.keyCode`. -/
structure KeyboardEvent where
  code : Option String
  keyCode : Nat
deriving DecidableEq, Repr

/-- The collaborators required from other modules. -/
structure Env where
  /-- `utils.shouldCaptureKeyEvent`. -/
  shouldCaptureKeyEvent : KeyboardEvent → Bool
  /-- `constants.keyboardevent.KEYCODE_TO_CODE`, `none` where the table has no entry. -/
  KEYCODE_TO_CODE : Nat → Option String
  /-- `THREE.Math.degToRad`. -/
  degToRad : ℚ → ℚ
  /-- `Vector3.applyEuler`. -/
  applyEuler : Vector3 → Euler → Vector3

/-- The part of the entity `this.el` the component touches. -/
structure Entity where
  /-- The computed `position` attribute. -/
  position : Vector3
  /-- The computed `rotation` attribute in degrees, `none` when it is not available. -/
  rotation : Option Vector3
  /-- The calls `object3D.translateX/Y/Z(d)` received so far, oldest first. -/
  object3D : List (Axis × ℚ)
deriving DecidableEq, Repr

/-- The state of one component instance. -/
structure Component where
  data : Data
  el : Entity
  velocity : Vector3
  keys : Keys
  /-- The field `this.prevTime`, `none` while it is `undefined`. -/
  prevTime : Option ℚ
  /-- Whether the `keydown` / `keyup` listeners are attached to `window`. -/
  keyListeners : Bool
  /-- Whether the `blur` / `focus` / `visibilitychange` listeners are attached. -/
  visibilityListeners : Bool
deriving DecidableEq, Repr

/-! ## Operations -/

/-- The method `init`: zero velocity, no key tracked, visibility listeners attached. -/
def init (data : Data) (el : Entity) : Component where
  data := data
  el := el
  velocity := ⟨0, 0, 0⟩
  keys := []
  prevTime := none
  keyListeners := false
  visibilityListeners := true

/-- The expression `this.prevTime || Date.now()`: the stored time when it is truthy (defined
and not `0`), else the reading of `Date.now()`. -/
def prevTimeOr (prevTime : Option ℚ) (dateNow : ℚ) : ℚ :=
  match prevTime with
  | some t => if t = 0 then dateNow else t
  | none => dateNow

/-- The local `delta` of `update`: `(time - prevTime) / 1000` with `time` the reading of
`window.performance.now()`. -/
def elapsed (c : Component) (dateNow time : ℚ) : ℚ :=
  (time - prevTimeOr c.prevTime dateNow) / 1000

/-- The method `getMovementVector(delta)`: the velocity scaled by `delta`, rotated by the
entity's pitch (only when `fly`) and yaw when a rotation is available. The source also stores
the zeroed pitch into the object returned by `getComputedAttribute`; that object belongs to
the entity and the write is not kept here. -/
def getMovementVector (env : Env) (c : Component) (delta : ℚ) : Vector3 :=
  let rotation : Euler := ⟨0, 0, 0, "YXZ"⟩
  let velocity := c.velocity
  let direction := velocity
  let direction := direction.multiplyScalar delta
  match c.el.rotation with
  | none => direction
  | some elRotation =>
    let elRotation := if !c.data.fly then { elRotation with x := 0 } else elRotation
    let rotation := rotation.set (env.degToRad elRotation.x) (env.degToRad elRotation.y) 0
    env.applyEuler direction rotation

/-- The method `update(previousData)`, given the readings `dateNow` of `Date.now()` and
`time` of `window.performance.now()`. -/
def update (env : Env) (previousData : Option Data) (dateNow time : ℚ) (c : Component) :
    Component :=
  let data := c.data
  let acceleration := data.acceleration
  let easing := data.easing
  let velocity := c.velocity
  let prevTime := prevTimeOr c.prevTime dateNow
  let delta := (time - prevTime) / 1000
  let keys := c.keys
  let adAxis := data.adAxis
  let wsAxis := data.wsAxis
  let adSign : ℚ := if data.adInverted then -1 else 1
  let wsSign : ℚ := if data.wsInverted then -1 else 1
  let c := { c with prevTime := some time }
  -- If data changed or FPS too low, reset velocity.
  if previousData.isSome || decide (delta > MAX_DELTA) then
    let velocity := velocity.set adAxis 0
    let velocity := velocity.set wsAxis 0
    { c with velocity := velocity }
  else
    let velocity := velocity.set adAxis (velocity.get adAxis - velocity.get adAxis * easing * delta)
    let velocity := velocity.set wsAxis (velocity.get wsAxis - velocity.get wsAxis * easing * delta)
    let position := c.el.position
    let velocity :=
      if data.enabled then
        let velocity :=
          if data.adEnabled then
            let velocity :=
              if keys.truthy "KeyA" || keys.truthy "ArrowLeft" then
                velocity.set adAxis (velocity.get adAxis - adSign * acceleration * delta)
              else velocity
            if keys.truthy "KeyD" || keys.truthy "ArrowRight" then
              velocity.set adAxis (velocity.get adAxis + adSign * acceleration * delta)
            else velocity
          else velocity
        if data.wsEnabled then
          let velocity :=
            if keys.truthy "KeyW" || keys.truthy "ArrowUp" then
              velocity.set wsAxis (velocity.get wsAxis - wsSign * acceleration * delta)
            else velocity
          if keys.truthy "KeyS" || keys.truthy "ArrowDown" then
            velocity.set wsAxis (velocity.get wsAxis + wsSign * acceleration * delta)
          else velocity
        else velocity
      else velocity
    let c := { c with velocity := velocity }
    let movementVector := getMovementVector env c delta
    let object3D := c.el.object3D ++
      [(Axis.x, movementVector.x), (Axis.y, movementVector.y), (Axis.z, movementVector.z)]
    { c with el := { c.el with
        object3D := object3D
        position := ⟨position.x + movementVector.x, position.y + movementVector.y,
          position.z + movementVector.z⟩ } }

/-- The method `play`. -/
def play (c : Component) : Component :=
  { c with keyListeners := true }

/-- The method `pause`: the key object is replaced by an empty one and the key listeners are
removed. -/
def pause (c : Component) : Component :=
  { c with keys := [], keyListeners := false }

/-- The method `tick(t)`: `update` without an argument. -/
def tick (env : Env) (dateNow time : ℚ) (c : Component) : Component :=
  update env none dateNow time c

/-- The method `remove`. -/
def remove (c : Component) : Component :=
  { pause c with visibilityListeners := false }

/-- The method `onBlur`. -/
def onBlur (c : Component) : Component :=
  pause c

/-- The method `onFocus`. -/
def onFocus (c : Component) : Component :=
  play c

/-- The method `onVisibilityChange`, given the value of `document.hidden`. -/
def onVisibilityChange (hidden : Bool) (c : Component) : Component :=
  if hidden then onBlur c else onFocus c

/-- The expression `event.code || KEYCODE_TO_CODE[event.keyCode]`: the native code when it is
truthy (present and not the empty string), else the table entry, which may be `undefined`. -/
def eventCode (env : Env) (event : KeyboardEvent) : Option String :=
  match event.code with
  | some s => if s = "" then env.KEYCODE_TO_CODE event.keyCode else some s
  | none => env.KEYCODE_TO_CODE event.keyCode

/-- The property name used by `this.keys[code]`: a string names itself and `undefined` is
converted to the string `"undefined"`. -/
def propertyName : Option String → String
  | some s => s
  | none => "undefined"

/-- The method `onKeyDown`. -/
def onKeyDown (env : Env) (event : KeyboardEvent) (c : Component) : Component :=
  if !env.shouldCaptureKeyEvent event then c
  else
    let code := eventCode env event
    { c with keys := c.keys.assign (propertyName code) true }

/-- The method `onKeyUp`. -/
def onKeyUp (env : Env) (event : KeyboardEvent) (c : Component) : Component :=
  if !env.shouldCaptureKeyEvent event then c
  else
    let code := eventCode env event
    { c with keys := c.keys.assign (propertyName code) false }

/-- The velocity statements of `update` past the guard, for a given `delta`: the two decay
assignments followed by the four key statements. -/
def nextVelocity (c : Component) (delta : ℚ) : Vector3 :=
  let data := c.data
  let acceleration := data.acceleration
  let easing := data.easing
  let velocity := c.velocity
  let keys := c.keys
  let adAxis := data.adAxis
  let wsAxis := data.wsAxis
  let adSign : ℚ := if data.adInverted then -1 else 1
  let wsSign : ℚ := if data.wsInverted then -1 else 1
  let velocity := velocity.set adAxis (velocity.get adAxis - velocity.get adAxis * easing * delta)
  let velocity := velocity.set wsAxis (velocity.get wsAxis - velocity.get wsAxis * easing * delta)
  if data.enabled then
    let velocity :=
      if data.adEnabled then
        let velocity :=
          if keys.truthy "KeyA" || keys.truthy "ArrowLeft" then
            velocity.set adAxis (velocity.get adAxis - adSign * acceleration * delta)
          else velocity
        if keys.truthy "KeyD" || keys.truthy "ArrowRight" then
          velocity.set adAxis (velocity.get adAxis + adSign * acceleration * delta)
        else velocity
      else velocity
    if data.wsEnabled then
      let velocity :=
        if keys.truthy "KeyW" || keys.truthy "ArrowUp" then
          velocity.set wsAxis (velocity.get wsAxis - wsSign * acceleration * delta)
        else velocity
      if keys.truthy "KeyS" || keys.truthy "ArrowDown" then
        velocity.set wsAxis (velocity.get wsAxis + wsSign * acceleration * delta)
      else velocity
    else velocity
  else velocity

/-- The local `movementVector` of `update` past the guard: `getMovementVector(delta)` called
on the component once its velocity is `nextVelocity`. -/
def movementVector (env : Env) (c : Component) (time delta : ℚ) : Vector3 :=
  getMovementVector env { c with prevTime := some time, velocity := nextVelocity c delta } delta

/-- A run of ticks, one per pair of clock readings `(Date.now(), performance.now())`. -/
def ticks (env : Env) (clock : List (ℚ × ℚ)) (c : Component) : Component :=
  clock.foldl (fun s r => tick env r.1 r.2 s) c

/-- The clock readings of `n` consecutive ticks spaced by `step` milliseconds, after a call
at which `Date.now()` read `dateNow` and `performance.now()` read `time`. -/
def fixedClock (dateNow time step : ℚ) (n : Nat) : List (ℚ × ℚ) :=
  (List.range n).map (fun k => (dateNow + (k + 1) * step, time + (k + 1) * step))

/-! ## Sample collaborators and states used to evaluate the definitions -/

/-- The eight entries of the legacy key-code table that the component reacts to. -/
def sampleTable : Nat → Option String
  | 37 => some "ArrowLeft"
  | 38 => some "ArrowUp"
  | 39 => some "ArrowRight"
  | 40 => some "ArrowDown"
  | 65 => some "KeyA"
  | 68 => some "KeyD"
  | 83 => some "KeyS"
  | 87 => some "KeyW"
  | _ => none

/-- A sample environment: every event is captured, angles and vectors pass unchanged through
the three.js stand-ins. -/
def sampleEnv : Env where
  shouldCaptureKeyEvent := fun _ => true
  KEYCODE_TO_CODE := sampleTable
  degToRad := fun d => d
  applyEuler := fun v _ => v

/-- An entity at the origin without a resolved rotation. -/
def sampleEntity : Entity where
  position := ⟨0, 0, 0⟩
  rotation := none
  object3D := []

/-- A running component with the default data: velocity `(1, 2, 3)`, the keys `KeyD` and
`KeyW` held, last tick at time `1000`. -/
def movingComponent : Component where
  data := schemaDefaults
  el := sampleEntity
  velocity := ⟨1, 2, 3⟩
  keys := [("KeyD", true), ("KeyW", true)]
  prevTime := some 1000
  keyListeners := true
  visibilityListeners := true

/-- A component right after `init` and `play` whose first event, before any tick, is a key-down
of `KeyW`. -/
def startedComponent : Component :=
  onKeyDown sampleEnv ⟨some "KeyW", 87⟩ (play (init schemaDefaults sampleEntity))

/-- A component after `init` and `play`, no key pressed, at rest, with the forward key then
held and the last tick at time `1000`. -/
def forwardComponent : Component :=
  { startedComponent with prevTime := some 1000 }

/-- The component `movingComponent` with no key held. -/
def idleComponent : Component :=
  { movingComponent with keys := [] }

/-- The component `idleComponent` with the velocity `(1, 0, 3)`, which has no part along the
axis that is not configured. -/
def glidingComponent : Component :=
  { idleComponent with velocity := ⟨1, 0, 3⟩ }

/-- The number `1` for a held key and `0` otherwise. -/
def held (b : Bool) : ℚ := if b then 1 else 0

/-- Modelled from the spec: the configuration-changed notification of the host framework
(spec §6), which is not part of this file. The component data is replaced by `newData` and
`update` is called with the data it had before. -/
def updateData (env : Env) (newData : Data) (dateNow time : ℚ) (c : Component) : Component :=
  update env (some c.data) dateNow time { c with data := newData }

/-- Modelled from the spec: `Vector3.applyEuler` of three.js for an Euler of order `YXZ`
(yaw, then pitch, then roll; the rotation matrix is `Ry * Rx * Rz`), given the cosine and the
sine. The vector is turned by `e.z` about the z axis, then by `e.x` about the x axis, then by
`e.y` about the y axis. -/
def applyEulerYXZ (cos sin : ℚ → ℚ) (v : Vector3) (e : Euler) : Vector3 :=
  let v1 : Vector3 := ⟨v.x * cos e.z - v.y * sin e.z, v.x * sin e.z + v.y * cos e.z, v.z⟩
  let v2 : Vector3 := ⟨v1.x, v1.y * cos e.x - v1.z * sin e.x, v1.y * sin e.x + v1.z * cos e.x⟩
  ⟨v2.x * cos e.y + v2.z * sin e.y, v2.y, -(v2.x * sin e.y) + v2.z * cos e.y⟩

/-- The cosine at the right angles, the angle being counted in quarter turns: `1, 0, -1, 0`
at `0, 1, 2, 3`. Other angles are not used and read `0`. -/
def quarterCos (q : ℚ) : ℚ :=
  if q = 0 then 1 else if q = 2 then -1 else 0

/-- The sine at the right angles, the angle being counted in quarter turns: `0, 1, 0, -1`
at `0, 1, 2, 3`. Other angles are not used and read `0`. -/
def quarterSin (q : ℚ) : ℚ :=
  if q = 1 then 1 else if q = 3 then -1 else 0

/-- A sample environment whose rotation is exact at right angles: angles are converted from
degrees to quarter turns (in place of radians, which are not rational at right angles) and
`applyEuler` is `applyEulerYXZ` with the cosine and sine of quarter turns. -/
def rightAngleEnv : Env where
  shouldCaptureKeyEvent := fun _ => true
  KEYCODE_TO_CODE := sampleTable
  degToRad := fun d => d / 90
  applyEuler := applyEulerYXZ quarterCos quarterSin

/-- A component at rest with the default data and `KeyD` held, last tick at time `1000`,
whose entity has the rotation `(0, 0, 90)`: no pitch, no yaw, a roll of `90` degrees. -/
def rolledComponent : Component where
  data := schemaDefaults
  el := { position := ⟨0, 0, 0⟩, rotation := some ⟨0, 0, 90⟩, object3D := [] }
  velocity := ⟨0, 0, 0⟩
  keys := [("KeyD", true)]
  prevTime := some 1000
  keyListeners := true
  visibilityListeners := true

/-- A component with the default data moving along its ad-axis only, velocity `(2, 0, 0)`,
whose entity has the rotation `(0, 90, 0)`: a yaw of `90` degrees, no pitch. -/
def yawedComponent : Component where
  data := schemaDefaults
  el := { position := ⟨0, 0, 0⟩, rotation := some ⟨0, 90, 0⟩, object3D := [] }
  velocity := ⟨2, 0, 0⟩
  keys := []
  prevTime := some 1000
  keyListeners := true
  visibilityListeners := true

/-- A component with the velocity `(1, 0, 0)` whose two configured axes are both `x`,
with the default easing and no key held, last tick at time `1000`. -/
def sameAxisComponent : Component where
  data := { schemaDefaults with wsAxis := Axis.x }
  el := sampleEntity
  velocity := ⟨1, 0, 0⟩
  keys := []
  prevTime := some 1000
  keyListeners := true
  visibilityListeners := true

/-- A reachable state with velocity built up on `x`: `init` and `play` with the default data
(`adAxis = x`, `wsAxis = z`), a first tick, a key-down of `KeyD`, a tick `100` ms later and
the key-up of `KeyD`. -/
def acceleratedComponent : Component :=
  onKeyUp sampleEnv ⟨some "KeyD", 68⟩
    (tick sampleEnv 1700000000100 1100
      (onKeyDown sampleEnv ⟨some "KeyD", 68⟩
        (tick sampleEnv 1700000000000 1000
          (play (init schemaDefaults sampleEntity)))))

/-- The state `acceleratedComponent` after its `adAxis` is changed from `x` to `y`, `16` ms
later: neither configured axis names `x` any more. -/
def driftingComponent : Component :=
  updateData sampleEnv { schemaDefaults with adAxis := Axis.y } 1700000000116 1116
    acceleratedComponent

/-! ## Basic facts about vectors -/

@[simp]
theorem Vector3.get_set_same (v : Vector3) (a : Axis) (q : ℚ) :
    (v.set a q).get a = q := by
  cases a <;> rfl

@[simp]
theorem Vector3.get_set_of_ne (v : Vector3) {a b : Axis} (h : a ≠ b) (q : ℚ) :
    (v.set a q).get b = v.get b := by
  cases a <;> cases b <;> first | rfl | exact absurd rfl h

/-! ## The velocity update of an ordinary tick -/

/-- C1. On a tick that is not a reset (no previous data, `delta ≤ MAX_DELTA`), with the
controller and both key pairs enabled and `adAxis ≠ wsAxis`, the new velocity on each
configured axis is the old one times `1 - easing * delta` plus
`sign * acceleration * delta * (R - L)` (respectively `B - F`): the acceleration of the tick
is added after the decay and is not decayed. -/
theorem tick_velocity_formula (env : Env) (c : Component) (dateNow time : ℚ)
    (hdelta : elapsed c dateNow time ≤ MAX_DELTA)
    (hen : c.data.enabled = true) (had : c.data.adEnabled = true)
    (hws : c.data.wsEnabled = true) (hax : c.data.adAxis ≠ c.data.wsAxis) :
    (tick env dateNow time c).velocity.get c.data.adAxis
        = c.velocity.get c.data.adAxis * (1 - c.data.easing * elapsed c dateNow time)
          + (if c.data.adInverted then -1 else 1) * c.data.acceleration
            * elapsed c dateNow time
            * (held (c.keys.truthy "KeyD" || c.keys.truthy "ArrowRight")
                - held (c.keys.truthy "KeyA" || c.keys.truthy "ArrowLeft"))
    ∧ (tick env dateNow time c).velocity.get c.data.wsAxis
        = c.velocity.get c.data.wsAxis * (1 - c.data.easing * elapsed c dateNow time)
          + (if c.data.wsInverted then -1 else 1) * c.data.acceleration
            * elapsed c dateNow time
            * (held (c.keys.truthy "KeyS" || c.keys.truthy "ArrowDown")
                - held (c.keys.truthy "KeyW" || c.keys.truthy "ArrowUp")) := by
  have hax' : c.data.wsAxis ≠ c.data.adAxis := Ne.symm hax
  unfold elapsed at hdelta
  simp only [tick, update, elapsed, Option.isSome_none, Bool.false_or, decide_eq_true_eq,
    not_lt.mpr hdelta, if_false, hen, had, hws, if_true, held]
  constructor
  · split_ifs <;> simp [hax, hax'] <;> ring
  · split_ifs <;> simp [hax, hax'] <;> ring

/-- The formula of C1 evaluated on `movingComponent` after `100` ms: the ad-axis velocity goes
from `1` to `1 * (1 - 2) + 6.5 = 5.5`, the ws-axis velocity from `3` to `3 * (1 - 2) - 6.5`. -/
theorem tick_velocity_formula_witness :
    elapsed movingComponent 0 1100 ≤ MAX_DELTA
    ∧ (tick sampleEnv 0 1100 movingComponent).velocity.get Axis.x = 11 / 2
    ∧ (tick sampleEnv 0 1100 movingComponent).velocity.get Axis.z = -19 / 2 := by
  have hd : elapsed movingComponent 0 1100 ≤ MAX_DELTA := by
    norm_num [elapsed, movingComponent, prevTimeOr, MAX_DELTA]
  have h := tick_velocity_formula sampleEnv movingComponent 0 1100 hd rfl rfl rfl (by decide)
  refine ⟨hd, h.1.trans ?_, h.2.trans ?_⟩ <;>
    simp [elapsed, movingComponent, prevTimeOr, schemaDefaults, held, Keys.truthy,
      List.lookup, Vector3.get] <;> norm_num

/-! ## The reset guard -/

/-- The state left by `update` when its guard holds. -/
theorem update_of_guard (env : Env) (previousData : Option Data) (dateNow time : ℚ)
    (c : Component)
    (h : previousData.isSome = true ∨ elapsed c dateNow time > MAX_DELTA) :
    update env previousData dateNow time c
      = { c with
          prevTime := some time
          velocity := (c.velocity.set c.data.adAxis 0).set c.data.wsAxis 0 } := by
  have hg : (previousData.isSome || decide ((time - prevTimeOr c.prevTime dateNow) / 1000
      > MAX_DELTA)) = true := by
    rcases h with h | h
    · simp [h]
    · simp only [elapsed] at h
      simp [h]
  simp only [update, hg, if_true]

/-- The state left by `update` when its guard does not hold: `nextVelocity` is stored, and
`movementVector` is sent to `object3D` and added to the position. -/
theorem update_of_not_guard (env : Env) (previousData : Option Data) (dateNow time : ℚ)
    (c : Component) (hp : previousData = none) (h : elapsed c dateNow time ≤ MAX_DELTA) :
    update env previousData dateNow time c
      = { c with
          prevTime := some time
          velocity := nextVelocity c (elapsed c dateNow time)
          el := { c.el with
            object3D := c.el.object3D ++
              [(Axis.x, (movementVector env c time (elapsed c dateNow time)).x),
               (Axis.y, (movementVector env c time (elapsed c dateNow time)).y),
               (Axis.z, (movementVector env c time (elapsed c dateNow time)).z)]
            position :=
              ⟨c.el.position.x + (movementVector env c time (elapsed c dateNow time)).x,
               c.el.position.y + (movementVector env c time (elapsed c dateNow time)).y,
               c.el.position.z + (movementVector env c time (elapsed c dateNow time)).z⟩ } } := by
  subst hp
  have hg : (Option.isSome (none : Option Data)
      || decide ((time - prevTimeOr c.prevTime dateNow) / 1000 > MAX_DELTA)) = false := by
    simp only [elapsed] at h
    simp [h]
  unfold update
  simp only [hg]
  rfl

/-- Zeroing `adAxis` then `wsAxis` leaves both components at zero. -/
theorem Vector3.get_set_zero_set_zero (v : Vector3) (a b : Axis) :
    ((v.set a 0).set b 0).get a = 0 ∧ ((v.set a 0).set b 0).get b = 0 := by
  cases a <;> cases b <;> exact ⟨rfl, rfl⟩

/-- C2. When previous data is passed or `delta > MAX_DELTA`, the velocity on `adAxis` and on
`wsAxis` becomes zero and the entity is left as it was: its position is not written and no
translation is sent to its `object3D`, so the displacement of the tick is zero. -/
theorem update_reset (env : Env) (previousData : Option Data) (dateNow time : ℚ)
    (c : Component)
    (h : previousData.isSome = true ∨ elapsed c dateNow time > MAX_DELTA) :
    (update env previousData dateNow time c).velocity.get c.data.adAxis = 0
    ∧ (update env previousData dateNow time c).velocity.get c.data.wsAxis = 0
    ∧ (update env previousData dateNow time c).el = c.el := by
  rw [update_of_guard env previousData dateNow time c h]
  exact ⟨(Vector3.get_set_zero_set_zero _ _ _).1, (Vector3.get_set_zero_set_zero _ _ _).2, rfl⟩

/-- C2 evaluated on `movingComponent` after a gap of `300` ms. -/
theorem update_reset_witness :
    elapsed movingComponent 0 1300 > MAX_DELTA
    ∧ (update sampleEnv none 0 1300 movingComponent).velocity = ⟨0, 2, 0⟩
    ∧ (update sampleEnv none 0 1300 movingComponent).el = sampleEntity := by
  have hd : elapsed movingComponent 0 1300 > MAX_DELTA := by
    norm_num [elapsed, movingComponent, prevTimeOr, MAX_DELTA]
  have h := update_reset sampleEnv none 0 1300 movingComponent (Or.inr hd)
  refine ⟨hd, ?_, h.2.2⟩
  have hx : (update sampleEnv none 0 1300 movingComponent).velocity.x = 0 := h.1
  have hz : (update sampleEnv none 0 1300 movingComponent).velocity.z = 0 := h.2.1
  have hy : (update sampleEnv none 0 1300 movingComponent).velocity.y = 2 := by
    norm_num [update, movingComponent, prevTimeOr, MAX_DELTA, schemaDefaults, Vector3.set]
  cases hv : (update sampleEnv none 0 1300 movingComponent).velocity with
  | mk x y z => simp_all

/-! ## The first call -/

/-- C3, the code at the failing input. A component that was initialised and played, and
received a key-down of `KeyW` before its first tick, has no previous time. Its first tick,
with `Date.now()` at `1700000000000` and `performance.now()` at `5000`, measures `delta`
between the two clocks, `-1699999995`, which does not exceed `MAX_DELTA`: the ws-axis
velocity becomes `65 * 1699999995` instead of zero and the position is moved. With the one
reading `5000` in both places the same tick has `delta = 0` and leaves the velocity at zero
and the position where it was. -/
theorem first_tick_not_reset :
    startedComponent.prevTime = none
    ∧ startedComponent.data.wsAxis = Axis.z
    ∧ elapsed startedComponent 1700000000000 5000 = -1699999995
    ∧ (tick sampleEnv 1700000000000 5000 startedComponent).velocity
        = ⟨0, 0, 110499999675⟩
    ∧ (tick sampleEnv 1700000000000 5000 startedComponent).el.position
        = ⟨0, 0, -187849998895000001625⟩
    ∧ (tick sampleEnv 1700000000000 5000 startedComponent).el.position
        ≠ startedComponent.el.position
    ∧ elapsed startedComponent 5000 5000 = 0
    ∧ (tick sampleEnv 5000 5000 startedComponent).velocity = ⟨0, 0, 0⟩
    ∧ (tick sampleEnv 5000 5000 startedComponent).el.position
        = startedComponent.el.position := by
  have hpos : (tick sampleEnv 1700000000000 5000 startedComponent).el.position
      = ⟨0, 0, -187849998895000001625⟩ := by
    simp [tick, update, startedComponent, onKeyDown, play, init, sampleEnv, eventCode,
      propertyName, Keys.assign, Keys.store, schemaDefaults, sampleEntity, prevTimeOr,
      MAX_DELTA, Keys.truthy, List.lookup, Vector3.set, Vector3.get, getMovementVector,
      Vector3.multiplyScalar]
    norm_num
  refine ⟨rfl, rfl, ?_, ?_, hpos, ?_, ?_, ?_, ?_⟩
  · norm_num [elapsed, startedComponent, onKeyDown, play, init, sampleEnv, prevTimeOr]
  · simp [tick, update, startedComponent, onKeyDown, play, init, sampleEnv, eventCode,
      propertyName, Keys.assign, Keys.store, schemaDefaults, sampleEntity, prevTimeOr,
      MAX_DELTA, Keys.truthy, List.lookup, Vector3.set, Vector3.get]
    norm_num
  · rw [hpos]
    simp [startedComponent, onKeyDown, play, init, sampleEnv, sampleEntity]
  · norm_num [elapsed, startedComponent, onKeyDown, play, init, sampleEnv, prevTimeOr]
  · simp [tick, update, startedComponent, onKeyDown, play, init, sampleEnv, eventCode,
      propertyName, Keys.assign, Keys.store, schemaDefaults, sampleEntity, prevTimeOr,
      MAX_DELTA, Keys.truthy, List.lookup, Vector3.set, Vector3.get]
    norm_num
  · simp [tick, update, startedComponent, onKeyDown, play, init, sampleEnv, eventCode,
      propertyName, Keys.assign, Keys.store, schemaDefaults, sampleEntity, prevTimeOr,
      MAX_DELTA, Keys.truthy, List.lookup, Vector3.set, Vector3.get, getMovementVector,
      Vector3.multiplyScalar]
    norm_num

/-! ## The stored time -/

/-- Every call of `update` stores `time` in `prevTime`, on both paths. -/
theorem update_prevTime (env : Env) (previousData : Option Data) (dateNow time : ℚ)
    (c : Component) :
    (update env previousData dateNow time c).prevTime = some time := by
  by_cases h : previousData.isSome = true ∨ elapsed c dateNow time > MAX_DELTA
  · rw [update_of_guard env previousData dateNow time c h]
  · rw [not_or] at h
    have hp : previousData = none := by
      cases previousData with
      | none => rfl
      | some d => exact absurd rfl h.1
    rw [update_of_not_guard env previousData dateNow time c hp (not_lt.mp h.2)]

/-- After a call at a non-zero `time`, the next call measures its `delta` from `time`. -/
theorem elapsed_after_update (env : Env) (previousData : Option Data)
    (dateNow time dateNow2 time2 : ℚ) (c : Component) (ht : time ≠ 0) :
    elapsed (update env previousData dateNow time c) dateNow2 time2
      = (time2 - time) / 1000 := by
  simp [elapsed, update_prevTime, prevTimeOr, ht]

/-- C4, the code at the failing input. A tick at `performance.now() = 0` stores `0`, which
`this.prevTime || Date.now()` takes as unset: the next tick, at `performance.now() = 16` with
`Date.now() = 1700000000016`, computes `delta = -1700000000` and not `(16 - 0) / 1000`. -/
theorem elapsed_after_tick_at_zero :
    (tick sampleEnv 1700000000000 0 (play (init schemaDefaults sampleEntity))).prevTime
        = some 0
    ∧ elapsed (tick sampleEnv 1700000000000 0 (play (init schemaDefaults sampleEntity)))
        1700000000016 16 = -1700000000
    ∧ elapsed (tick sampleEnv 1700000000000 0 (play (init schemaDefaults sampleEntity)))
        1700000000016 16 ≠ (16 - 0) / 1000 := by
  have hp : (tick sampleEnv 1700000000000 0 (play (init schemaDefaults sampleEntity))).prevTime
      = some 0 := update_prevTime _ _ _ _ _
  have he : elapsed (tick sampleEnv 1700000000000 0 (play (init schemaDefaults sampleEntity)))
      1700000000016 16 = -1700000000 := by
    simp only [elapsed, hp, prevTimeOr]
    norm_num
  refine ⟨hp, he, ?_⟩
  rw [he]
  norm_num

/-! ## The concrete scenario -/

/-- C5. With `acceleration = 65`, `easing = 20`, the default axes, no inversion, the
controller and the forward/back pair enabled, zero velocity, only the forward key held, no
rotation available and `delta = 0.1`, one tick leaves the velocity at `(0, 0, -6.5)` and
the movement vector is `(0, 0, -0.65)`, which is what the position is moved by. -/
theorem tick_forward_scenario (env : Env) (c : Component) (dateNow time : ℚ)
    (hacc : c.data.acceleration = 65) (heas : c.data.easing = 20)
    (hws : c.data.wsAxis = Axis.z) (had : c.data.adAxis = Axis.x)
    (hwsInv : c.data.wsInverted = false) (hen : c.data.enabled = true)
    (hwsEn : c.data.wsEnabled = true)
    (hdelta : elapsed c dateNow time = 1 / 10)
    (hvel : c.velocity = ⟨0, 0, 0⟩)
    (hF : (c.keys.truthy "KeyW" || c.keys.truthy "ArrowUp") = true)
    (hB : (c.keys.truthy "KeyS" || c.keys.truthy "ArrowDown") = false)
    (hL : (c.keys.truthy "KeyA" || c.keys.truthy "ArrowLeft") = false)
    (hR : (c.keys.truthy "KeyD" || c.keys.truthy "ArrowRight") = false)
    (hrot : c.el.rotation = none) :
    (tick env dateNow time c).velocity = ⟨0, 0, -13 / 2⟩
    ∧ getMovementVector env (tick env dateNow time c) (1 / 10) = ⟨0, 0, -13 / 20⟩
    ∧ (tick env dateNow time c).el.position
        = ⟨c.el.position.x + 0, c.el.position.y + 0, c.el.position.z + -13 / 20⟩ := by
  have hle : elapsed c dateNow time ≤ MAX_DELTA := by
    rw [hdelta]; norm_num [MAX_DELTA]
  have hnv : nextVelocity c (1 / 10) = ⟨0, 0, -13 / 2⟩ := by
    simp only [nextVelocity, hacc, heas, hws, had, hwsInv, hen, hwsEn, hvel, hF, hB, hL, hR]
    norm_num [Vector3.set, Vector3.get]
  have hmv : movementVector env c time (1 / 10) = ⟨0, 0, -13 / 20⟩ := by
    simp only [movementVector, getMovementVector, hnv, hrot, Vector3.multiplyScalar]
    norm_num
  rw [tick, update_of_not_guard env none dateNow time c rfl hle, hdelta]
  refine ⟨hnv, ?_, ?_⟩
  · simp only [getMovementVector, hnv, hrot, Vector3.multiplyScalar]
    norm_num
  · simp only [hmv]

/-- C5 evaluated on `forwardComponent` (last tick at `1000`) ticking at time `1100`. -/
theorem tick_forward_scenario_witness :
    elapsed forwardComponent 0 1100 = 1 / 10
    ∧ (tick sampleEnv 0 1100 forwardComponent).velocity = ⟨0, 0, -13 / 2⟩
    ∧ (tick sampleEnv 0 1100 forwardComponent).el.position.z = -13 / 20 := by
  have hd : elapsed forwardComponent 0 1100 = 1 / 10 := by
    norm_num [elapsed, forwardComponent, prevTimeOr]
  have h := tick_forward_scenario sampleEnv forwardComponent 0 1100 rfl rfl rfl rfl rfl rfl
    rfl hd rfl (by decide) (by decide) (by decide) (by decide) rfl
  refine ⟨hd, h.1, ?_⟩
  rw [h.2.2]
  norm_num [forwardComponent, startedComponent, onKeyDown, play, init, sampleEnv,
    sampleEntity]



/-! ## Idle decay -/

/-- A run over two lists of readings is the run over the second after the first. -/
theorem ticks_append (env : Env) (l₁ l₂ : List (ℚ × ℚ)) (c : Component) :
    ticks env (l₁ ++ l₂) c = ticks env l₂ (ticks env l₁ c) := by
  simp [ticks, List.foldl_append]

/-- The readings of `n + 1` ticks are those of `n` ticks followed by one more. -/
theorem fixedClock_succ (dateNow time step : ℚ) (n : Nat) :
    fixedClock dateNow time step (n + 1)
      = fixedClock dateNow time step n ++ [(dateNow + (n + 1) * step, time + (n + 1) * step)] := by
  simp [fixedClock, List.range_succ]

/-- The run of `n + 1` evenly spaced ticks is one tick after the run of `n`. -/
theorem ticks_fixedClock_succ (env : Env) (dateNow time step : ℚ) (n : Nat) (c : Component) :
    ticks env (fixedClock dateNow time step (n + 1)) c
      = tick env (dateNow + (n + 1) * step) (time + (n + 1) * step)
          (ticks env (fixedClock dateNow time step n) c) := by
  rw [fixedClock_succ, ticks_append]
  rfl

/-- With none of the eight keys held, `nextVelocity` is the two decay assignments. -/
theorem nextVelocity_of_idle (c : Component) (delta : ℚ)
    (hL : (c.keys.truthy "KeyA" || c.keys.truthy "ArrowLeft") = false)
    (hR : (c.keys.truthy "KeyD" || c.keys.truthy "ArrowRight") = false)
    (hF : (c.keys.truthy "KeyW" || c.keys.truthy "ArrowUp") = false)
    (hB : (c.keys.truthy "KeyS" || c.keys.truthy "ArrowDown") = false) :
    nextVelocity c delta
      = ((c.velocity.set c.data.adAxis
            (c.velocity.get c.data.adAxis - c.velocity.get c.data.adAxis * c.data.easing * delta)).set
          c.data.wsAxis
            ((c.velocity.set c.data.adAxis
              (c.velocity.get c.data.adAxis
                - c.velocity.get c.data.adAxis * c.data.easing * delta)).get c.data.wsAxis
              - (c.velocity.set c.data.adAxis
                  (c.velocity.get c.data.adAxis
                    - c.velocity.get c.data.adAxis * c.data.easing * delta)).get c.data.wsAxis
                * c.data.easing * delta)) := by
  simp only [nextVelocity, hL, hR, hF, hB]
  simp

/-- The two decay assignments multiply a configured component by `q = 1 - easing * delta`
once, or twice when the two axes coincide; for `0 ≤ q ≤ 1` its size is at most `q` times the
old one. -/
theorem decay_abs_le (v : Vector3) (ad ws : Axis) (e delta : ℚ)
    (h0 : 0 ≤ 1 - e * delta) (h1 : 1 - e * delta ≤ 1) (a : Axis) (ha : a = ad ∨ a = ws) :
    |((v.set ad (v.get ad - v.get ad * e * delta)).set ws
        ((v.set ad (v.get ad - v.get ad * e * delta)).get ws
          - (v.set ad (v.get ad - v.get ad * e * delta)).get ws * e * delta)).get a|
      ≤ |v.get a| * (1 - e * delta) := by
  have key1 : ∀ t : ℚ, |t - t * e * delta| = |t| * (1 - e * delta) := by
    intro t
    have : t - t * e * delta = t * (1 - e * delta) := by ring
    rw [this, abs_mul, abs_of_nonneg h0]
  have key2 : ∀ t : ℚ, |t - t * e * delta - (t - t * e * delta) * e * delta|
      ≤ |t| * (1 - e * delta) := by
    intro t
    have : t - t * e * delta - (t - t * e * delta) * e * delta
        = t * (1 - e * delta) * (1 - e * delta) := by ring
    rw [this, abs_mul, abs_mul, abs_of_nonneg h0]
    have hnn : 0 ≤ |t| * (1 - e * delta) := mul_nonneg (abs_nonneg t) h0
    exact mul_le_of_le_one_right hnn h1
  rcases ha with rfl | rfl
  · cases a <;> cases ws <;> simp only [Vector3.set, Vector3.get] <;>
      first | exact (key1 _).le | exact key2 _
  · cases a <;> cases ad <;> simp only [Vector3.set, Vector3.get] <;>
      first | exact (key1 _).le | exact key2 _


/-- What `n` idle ticks spaced by `delta` keep and bound. -/
theorem ticks_idle_invariant (env : Env) (c : Component) (dateNow t0 delta : ℚ)
    (hprev : c.prevTime = some t0)
    (htimes : ∀ k : ℕ, t0 + k * (1000 * delta) ≠ 0)
    (hL : (c.keys.truthy "KeyA" || c.keys.truthy "ArrowLeft") = false)
    (hR : (c.keys.truthy "KeyD" || c.keys.truthy "ArrowRight") = false)
    (hF : (c.keys.truthy "KeyW" || c.keys.truthy "ArrowUp") = false)
    (hB : (c.keys.truthy "KeyS" || c.keys.truthy "ArrowDown") = false)
    (h0 : 0 < c.data.easing * delta) (h1 : c.data.easing * delta < 1)
    (hd : delta ≤ MAX_DELTA) (n : ℕ) :
    (ticks env (fixedClock dateNow t0 (1000 * delta) n) c).data = c.data
    ∧ (ticks env (fixedClock dateNow t0 (1000 * delta) n) c).keys = c.keys
    ∧ (ticks env (fixedClock dateNow t0 (1000 * delta) n) c).prevTime
        = some (t0 + n * (1000 * delta))
    ∧ ∀ a, a = c.data.adAxis ∨ a = c.data.wsAxis →
        |(ticks env (fixedClock dateNow t0 (1000 * delta) n) c).velocity.get a|
          ≤ |c.velocity.get a| * (1 - c.data.easing * delta) ^ n := by
  induction n with
  | zero =>
    refine ⟨rfl, rfl, ?_, ?_⟩
    · simp [fixedClock, ticks, hprev]
    · intro a _
      simp [fixedClock, ticks]
  | succ n ih =>
    obtain ⟨ihd, ihk, ihp, ihv⟩ := ih
    rw [ticks_fixedClock_succ]
    generalize ticks env (fixedClock dateNow t0 (1000 * delta) n) c = s at ihd ihk ihp ihv
    have hel : elapsed s (dateNow + ((n : ℚ) + 1) * (1000 * delta))
        (t0 + ((n : ℚ) + 1) * (1000 * delta)) = delta := by
      simp only [elapsed, ihp, prevTimeOr, htimes n, if_false]
      ring
    have hle : elapsed s (dateNow + ((n : ℚ) + 1) * (1000 * delta))
        (t0 + ((n : ℚ) + 1) * (1000 * delta)) ≤ MAX_DELTA := by rw [hel]; exact hd
    rw [tick, update_of_not_guard env none _ _ s rfl hle, hel]
    refine ⟨ihd, ihk, ?_, ?_⟩
    · simp
    · intro a ha
      show |(nextVelocity s delta).get a| ≤ _
      rw [nextVelocity_of_idle s delta (by rw [ihk]; exact hL) (by rw [ihk]; exact hR)
        (by rw [ihk]; exact hF) (by rw [ihk]; exact hB), ihd]
      have hq0 : 0 ≤ 1 - c.data.easing * delta := by linarith
      have hq1 : 1 - c.data.easing * delta ≤ 1 := by linarith
      calc _ ≤ |s.velocity.get a| * (1 - c.data.easing * delta) :=
            decay_abs_le s.velocity _ _ _ _ hq0 hq1 a ha
        _ ≤ (|c.velocity.get a| * (1 - c.data.easing * delta) ^ n)
              * (1 - c.data.easing * delta) :=
            mul_le_mul_of_nonneg_right (ihv a ha) hq0
        _ = |c.velocity.get a| * (1 - c.data.easing * delta) ^ (n + 1) := by ring

/-- C6, amended. With none of the eight keys held, last call at a time `t0`, and `N ≥ 1`
further ticks spaced by a fixed `delta` with `0 < easing * delta < 1` and
`delta ≤ MAX_DELTA` (all at non-zero times), each configured velocity component satisfies
`|v_N| ≤ |v_0| * (1 - easing * delta) ^ N`, and the component converges to zero: it stays
below any `ε > 0` from some tick on. -/
theorem idle_decay_bound (env : Env) (c : Component) (dateNow t0 delta : ℚ)
    (hprev : c.prevTime = some t0)
    (htimes : ∀ k : ℕ, t0 + k * (1000 * delta) ≠ 0)
    (hL : (c.keys.truthy "KeyA" || c.keys.truthy "ArrowLeft") = false)
    (hR : (c.keys.truthy "KeyD" || c.keys.truthy "ArrowRight") = false)
    (hF : (c.keys.truthy "KeyW" || c.keys.truthy "ArrowUp") = false)
    (hB : (c.keys.truthy "KeyS" || c.keys.truthy "ArrowDown") = false)
    (h0 : 0 < c.data.easing * delta) (h1 : c.data.easing * delta < 1)
    (hd : delta ≤ MAX_DELTA) :
    (∀ N : ℕ, 1 ≤ N →
      |(ticks env (fixedClock dateNow t0 (1000 * delta) N) c).velocity.get c.data.adAxis|
          ≤ |c.velocity.get c.data.adAxis| * (1 - c.data.easing * delta) ^ N
      ∧ |(ticks env (fixedClock dateNow t0 (1000 * delta) N) c).velocity.get c.data.wsAxis|
          ≤ |c.velocity.get c.data.wsAxis| * (1 - c.data.easing * delta) ^ N)
    ∧ (∀ ε : ℚ, 0 < ε → ∃ N0 : ℕ, ∀ N : ℕ, N0 ≤ N →
      |(ticks env (fixedClock dateNow t0 (1000 * delta) N) c).velocity.get c.data.adAxis| < ε
      ∧ |(ticks env (fixedClock dateNow t0 (1000 * delta) N) c).velocity.get c.data.wsAxis|
          < ε) := by
  have inv := ticks_idle_invariant env c dateNow t0 delta hprev htimes hL hR hF hB h0 h1 hd
  refine ⟨fun N _ => ⟨(inv N).2.2.2 _ (Or.inl rfl), (inv N).2.2.2 _ (Or.inr rfl)⟩, ?_⟩
  intro ε hε
  have hq0 : 0 ≤ 1 - c.data.easing * delta := by linarith
  have hq1 : 1 - c.data.easing * delta < 1 := by linarith
  have hM : 0 < |c.velocity.get c.data.adAxis| + |c.velocity.get c.data.wsAxis| + 1 := by
    positivity
  obtain ⟨n, hn⟩ := exists_pow_lt_of_lt_one (div_pos hε hM) hq1
  refine ⟨n, fun N hN => ?_⟩
  have hpow : (1 - c.data.easing * delta) ^ N ≤ (1 - c.data.easing * delta) ^ n :=
    pow_le_pow_of_le_one hq0 hq1.le hN
  have hpN : 0 ≤ (1 - c.data.easing * delta) ^ N := pow_nonneg hq0 N
  have hlt : (|c.velocity.get c.data.adAxis| + |c.velocity.get c.data.wsAxis| + 1)
      * (1 - c.data.easing * delta) ^ N < ε := by
    calc _ ≤ (|c.velocity.get c.data.adAxis| + |c.velocity.get c.data.wsAxis| + 1)
          * (1 - c.data.easing * delta) ^ n := mul_le_mul_of_nonneg_left hpow hM.le
      _ < (|c.velocity.get c.data.adAxis| + |c.velocity.get c.data.wsAxis| + 1)
          * (ε / (|c.velocity.get c.data.adAxis| + |c.velocity.get c.data.wsAxis| + 1)) :=
        mul_lt_mul_of_pos_left hn hM
      _ = ε := by field_simp
  constructor
  · calc _ ≤ |c.velocity.get c.data.adAxis| * (1 - c.data.easing * delta) ^ N :=
          (inv N).2.2.2 _ (Or.inl rfl)
      _ ≤ (|c.velocity.get c.data.adAxis| + |c.velocity.get c.data.wsAxis| + 1)
          * (1 - c.data.easing * delta) ^ N := by
        apply mul_le_mul_of_nonneg_right _ hpN
        linarith [abs_nonneg (c.velocity.get c.data.wsAxis)]
      _ < ε := hlt
  · calc _ ≤ |c.velocity.get c.data.wsAxis| * (1 - c.data.easing * delta) ^ N :=
          (inv N).2.2.2 _ (Or.inr rfl)
      _ ≤ (|c.velocity.get c.data.adAxis| + |c.velocity.get c.data.wsAxis| + 1)
          * (1 - c.data.easing * delta) ^ N := by
        apply mul_le_mul_of_nonneg_right _ hpN
        linarith [abs_nonneg (c.velocity.get c.data.adAxis)]
      _ < ε := hlt

/-- The amended C6 evaluated on `idleComponent` with `delta = 0.01`: after two ticks the
ad-axis velocity is at most `(4 / 5) ^ 2`, and it is below `0.001` from some tick on. -/
theorem idle_decay_bound_witness :
    |(ticks sampleEnv (fixedClock 0 1000 (1000 * (1 / 100)) 2) idleComponent).velocity.get
        Axis.x| ≤ 16 / 25
    ∧ ∃ N0 : ℕ, ∀ N : ℕ, N0 ≤ N →
      |(ticks sampleEnv (fixedClock 0 1000 (1000 * (1 / 100)) N) idleComponent).velocity.get
        Axis.x| < 1 / 1000 := by
  have h := idle_decay_bound sampleEnv idleComponent 0 1000 (1 / 100) rfl
    (by intro k; positivity) rfl rfl rfl rfl
    (by norm_num [idleComponent, movingComponent, schemaDefaults])
    (by norm_num [idleComponent, movingComponent, schemaDefaults])
    (by norm_num [MAX_DELTA])
  refine ⟨(h.1 2 (by norm_num)).1.trans ?_, ?_⟩
  · norm_num [idleComponent, movingComponent, schemaDefaults, Vector3.get]
  · obtain ⟨N0, hN0⟩ := h.2 (1 / 1000) (by norm_num)
    exact ⟨N0, fun N hN => (hN0 N hN).1⟩

/-- C6, counterexample. One idle tick of `glidingComponent` (velocity `(1, 0, 3)`, default
data, no key held) with `delta = 0.01` gives the velocity `(4 / 5, 0, 12 / 5)`: each
configured component equals `|v_0| * (1 - 20 * 0.01) ^ 1` and is not strictly below it, and
the same holds for the squared length of the whole vector. -/
theorem idle_decay_not_strict :
    glidingComponent.prevTime = some 1000
    ∧ 0 < glidingComponent.data.easing * (1 / 100)
    ∧ glidingComponent.data.easing * (1 / 100) < 1
    ∧ (ticks sampleEnv (fixedClock 0 1000 (1000 * (1 / 100)) 1) glidingComponent).velocity
        = ⟨4 / 5, 0, 12 / 5⟩
    ∧ ¬ (|(ticks sampleEnv (fixedClock 0 1000 (1000 * (1 / 100)) 1)
            glidingComponent).velocity.get glidingComponent.data.adAxis|
        < |glidingComponent.velocity.get glidingComponent.data.adAxis|
          * (1 - glidingComponent.data.easing * (1 / 100)) ^ 1)
    ∧ ¬ (|(ticks sampleEnv (fixedClock 0 1000 (1000 * (1 / 100)) 1)
            glidingComponent).velocity.get glidingComponent.data.wsAxis|
        < |glidingComponent.velocity.get glidingComponent.data.wsAxis|
          * (1 - glidingComponent.data.easing * (1 / 100)) ^ 1)
    ∧ ¬ ((ticks sampleEnv (fixedClock 0 1000 (1000 * (1 / 100)) 1)
            glidingComponent).velocity.x ^ 2
          + (ticks sampleEnv (fixedClock 0 1000 (1000 * (1 / 100)) 1)
            glidingComponent).velocity.y ^ 2
          + (ticks sampleEnv (fixedClock 0 1000 (1000 * (1 / 100)) 1)
            glidingComponent).velocity.z ^ 2
        < (glidingComponent.velocity.x ^ 2 + glidingComponent.velocity.y ^ 2
            + glidingComponent.velocity.z ^ 2)
          * ((1 - glidingComponent.data.easing * (1 / 100)) ^ 1) ^ 2) := by
  have hv : (ticks sampleEnv (fixedClock 0 1000 (1000 * (1 / 100)) 1)
      glidingComponent).velocity = ⟨4 / 5, 0, 12 / 5⟩ := by
    have hc : fixedClock 0 1000 (1000 * (1 / 100)) 1
        = [(0 + (((0 : ℕ) : ℚ) + 1) * (1000 * (1 / 100)),
            1000 + (((0 : ℕ) : ℚ) + 1) * (1000 * (1 / 100)))] := rfl
    rw [hc]
    simp [ticks, tick, update, glidingComponent, idleComponent, movingComponent,
      schemaDefaults, prevTimeOr, MAX_DELTA, Keys.truthy, List.lookup, Vector3.set,
      Vector3.get]
    norm_num
  have h45 : |(4 / 5 : ℚ)| = 4 / 5 := abs_of_pos (by norm_num)
  have h125 : |(12 / 5 : ℚ)| = 12 / 5 := abs_of_pos (by norm_num)
  have h3 : |(3 : ℚ)| = 3 := abs_of_pos (by norm_num)
  refine ⟨rfl, ?_, ?_, hv, ?_, ?_, ?_⟩
  · norm_num [glidingComponent, idleComponent, movingComponent, schemaDefaults]
  · norm_num [glidingComponent, idleComponent, movingComponent, schemaDefaults]
  · rw [hv]
    norm_num [glidingComponent, idleComponent, movingComponent, schemaDefaults, Vector3.get,
      h45]
  · rw [hv]
    norm_num [glidingComponent, idleComponent, movingComponent, schemaDefaults, Vector3.get,
      h125, h3]
  · rw [hv]
    norm_num [glidingComponent, idleComponent, movingComponent, schemaDefaults]

/-- Past the guard, the velocity stored by a tick is `nextVelocity` at the elapsed time. -/
theorem tick_velocity_of_le (env : Env) (c : Component) (dateNow time : ℚ)
    (h : elapsed c dateNow time ≤ MAX_DELTA) :
    (tick env dateNow time c).velocity = nextVelocity c (elapsed c dateNow time) := by
  rw [tick, update_of_not_guard env none dateNow time c rfl h]

/-! ## Sign inversion -/

/-- With the controller and the left/right pair enabled and only the left key held, the
velocity is the idle one with `adSign * acceleration * delta` subtracted on `adAxis`. -/
theorem nextVelocity_of_left (c : Component) (delta : ℚ)
    (hen : c.data.enabled = true) (had : c.data.adEnabled = true)
    (hL : (c.keys.truthy "KeyA" || c.keys.truthy "ArrowLeft") = true)
    (hR : (c.keys.truthy "KeyD" || c.keys.truthy "ArrowRight") = false)
    (hF : (c.keys.truthy "KeyW" || c.keys.truthy "ArrowUp") = false)
    (hB : (c.keys.truthy "KeyS" || c.keys.truthy "ArrowDown") = false) :
    nextVelocity c delta
      = (nextVelocity { c with keys := [] } delta).set c.data.adAxis
          ((nextVelocity { c with keys := [] } delta).get c.data.adAxis
            - (if c.data.adInverted then -1 else 1) * c.data.acceleration * delta) := by
  rw [nextVelocity_of_idle { c with keys := [] } delta rfl rfl rfl rfl]
  simp only [nextVelocity, hen, had, hL, hR, hF, hB, if_true, Bool.false_eq_true, if_false,
    ite_self]

/-- C7. On a tick that is not a reset, with the controller and the left/right pair enabled
and only the left key held, the ad-axis velocity differs from the one the same tick gives
with no key held (the decayed value) by `+acceleration * delta` when `adInverted` is set and
by `-acceleration * delta` when it is not; the decayed value is the same in both. -/
theorem left_key_inversion (env : Env) (c : Component) (dateNow time : ℚ)
    (hdelta : elapsed c dateNow time ≤ MAX_DELTA)
    (hen : c.data.enabled = true) (had : c.data.adEnabled = true)
    (hL : (c.keys.truthy "KeyA" || c.keys.truthy "ArrowLeft") = true)
    (hR : (c.keys.truthy "KeyD" || c.keys.truthy "ArrowRight") = false)
    (hF : (c.keys.truthy "KeyW" || c.keys.truthy "ArrowUp") = false)
    (hB : (c.keys.truthy "KeyS" || c.keys.truthy "ArrowDown") = false) :
    (tick env dateNow time
        { c with data := { c.data with adInverted := true } }).velocity.get c.data.adAxis
      - (tick env dateNow time
          { c with data := { c.data with adInverted := true }, keys := [] }).velocity.get
            c.data.adAxis
      = c.data.acceleration * elapsed c dateNow time
    ∧ (tick env dateNow time
        { c with data := { c.data with adInverted := false } }).velocity.get c.data.adAxis
      - (tick env dateNow time
          { c with data := { c.data with adInverted := false }, keys := [] }).velocity.get
            c.data.adAxis
      = -(c.data.acceleration * elapsed c dateNow time)
    ∧ (tick env dateNow time
        { c with data := { c.data with adInverted := true }, keys := [] }).velocity
      = (tick env dateNow time
        { c with data := { c.data with adInverted := false }, keys := [] }).velocity := by
  have hT : ∀ (b : Bool) (ks : Keys),
      (tick env dateNow time
        { c with data := { c.data with adInverted := b }, keys := ks }).velocity
      = nextVelocity { c with data := { c.data with adInverted := b }, keys := ks }
          (elapsed c dateNow time) :=
    fun b ks => tick_velocity_of_le env
      { c with data := { c.data with adInverted := b }, keys := ks } dateNow time hdelta
  have hN : ∀ b : Bool,
      (nextVelocity { c with data := { c.data with adInverted := b } }
          (elapsed c dateNow time)).get c.data.adAxis
        - (nextVelocity { c with data := { c.data with adInverted := b }, keys := [] }
            (elapsed c dateNow time)).get c.data.adAxis
        = -((if b then -1 else 1) * c.data.acceleration * elapsed c dateNow time) := by
    intro b
    rw [nextVelocity_of_left { c with data := { c.data with adInverted := b } }
      (elapsed c dateNow time) hen had hL hR hF hB]
    simp only [Vector3.get_set_same]
    ring
  refine ⟨?_, ?_, ?_⟩
  · have h := hN true
    rw [← hT true c.keys, ← hT true []] at h
    rw [h]
    simp
  · have h := hN false
    rw [← hT false c.keys, ← hT false []] at h
    rw [h]
    simp
  · have hI : ∀ b : Bool,
        nextVelocity { c with data := { c.data with adInverted := b }, keys := [] }
            (elapsed c dateNow time)
          = nextVelocity { c with keys := [] } (elapsed c dateNow time) := by
      intro b
      rw [nextVelocity_of_idle { c with data := { c.data with adInverted := b }, keys := [] }
          (elapsed c dateNow time) rfl rfl rfl rfl,
        nextVelocity_of_idle { c with keys := [] } (elapsed c dateNow time) rfl rfl rfl rfl]
    rw [hT true [], hT false [], hI true, hI false]

/-- C7 evaluated on `movingComponent` with only `ArrowLeft` held and `delta = 0.1`: the key
changes the ad-axis velocity by `+6.5` when inverted and by `-6.5` when not. -/
theorem left_key_inversion_witness :
    (tick sampleEnv 0 1100
        { movingComponent with
          data := { schemaDefaults with adInverted := true }
          keys := [("ArrowLeft", true)] }).velocity.get Axis.x
      - (tick sampleEnv 0 1100
        { movingComponent with
          data := { schemaDefaults with adInverted := true }
          keys := [] }).velocity.get Axis.x = 13 / 2
    ∧ (tick sampleEnv 0 1100
        { movingComponent with
          data := { schemaDefaults with adInverted := false }
          keys := [("ArrowLeft", true)] }).velocity.get Axis.x
      - (tick sampleEnv 0 1100
        { movingComponent with
          data := { schemaDefaults with adInverted := false }
          keys := [] }).velocity.get Axis.x = -(13 / 2) := by
  have hd : elapsed { movingComponent with keys := [("ArrowLeft", true)] } 0 1100
      ≤ MAX_DELTA := by
    norm_num [elapsed, movingComponent, prevTimeOr, MAX_DELTA]
  have h := left_key_inversion sampleEnv { movingComponent with keys := [("ArrowLeft", true)] } 0 1100
    hd rfl rfl (by decide) (by decide) (by decide) (by decide)
  refine ⟨h.1.trans ?_, h.2.1.trans ?_⟩ <;>
    norm_num [elapsed, movingComponent, prevTimeOr, schemaDefaults]

/-! ## Disabled forward/back pair -/

/-- Reading a name from an empty key object. -/
theorem Keys.truthy_nil (name : String) : Keys.truthy [] name = false := rfl

/-- Reading a name from a key object, first property first. -/
theorem Keys.truthy_cons (n : String) (v : Bool) (rest : Keys) (name : String) :
    Keys.truthy ((n, v) :: rest) name = if name = n then v else Keys.truthy rest name := by
  by_cases h : name = n
  · simp [Keys.truthy, List.lookup, h]
  · have hb : (name == n) = false := by simpa using h
    simp [Keys.truthy, List.lookup, h, hb]

/-- With the forward/back pair disabled, `nextVelocity` reads the keys only through the
left and right tests. -/
theorem nextVelocity_of_wsDisabled (c : Component) (keys2 : Keys) (delta : ℚ)
    (hws : c.data.wsEnabled = false)
    (hL : (keys2.truthy "KeyA" || keys2.truthy "ArrowLeft")
      = (c.keys.truthy "KeyA" || c.keys.truthy "ArrowLeft"))
    (hR : (keys2.truthy "KeyD" || keys2.truthy "ArrowRight")
      = (c.keys.truthy "KeyD" || c.keys.truthy "ArrowRight")) :
    nextVelocity { c with keys := keys2 } delta = nextVelocity c delta := by
  simp only [nextVelocity, hws, hL, hR, Bool.false_eq_true, if_false]

/-- C8. With `wsEnabled = false`, for every call of `update` (reset or not), two key objects
that agree on every name other than `KeyW`, `ArrowUp`, `KeyS`, `ArrowDown` give the same
ws-axis velocity, and indeed the same velocity. -/
theorem ws_disabled_keys_ignored (env : Env) (previousData : Option Data) (dateNow time : ℚ) (c : Component)
    (keys2 : Keys) (hws : c.data.wsEnabled = false)
    (hsame : ∀ name : String, name ∉ ["KeyW", "ArrowUp", "KeyS", "ArrowDown"] →
      keys2.truthy name = c.keys.truthy name) :
    (update env previousData dateNow time { c with keys := keys2 }).velocity.get c.data.wsAxis
      = (update env previousData dateNow time c).velocity.get c.data.wsAxis
    ∧ (update env previousData dateNow time { c with keys := keys2 }).velocity
      = (update env previousData dateNow time c).velocity := by
  have hv : (update env previousData dateNow time { c with keys := keys2 }).velocity
      = (update env previousData dateNow time c).velocity := by
    by_cases h : previousData.isSome = true ∨ elapsed c dateNow time > MAX_DELTA
    · rw [update_of_guard env previousData dateNow time c h,
        update_of_guard env previousData dateNow time { c with keys := keys2 } h]
    · rw [not_or] at h
      have hp : previousData = none := by
        cases previousData with
        | none => rfl
        | some d => exact absurd rfl h.1
      rw [update_of_not_guard env previousData dateNow time c hp (not_lt.mp h.2),
        update_of_not_guard env previousData dateNow time { c with keys := keys2 } hp
          (not_lt.mp h.2)]
      have hL : (keys2.truthy "KeyA" || keys2.truthy "ArrowLeft")
          = (c.keys.truthy "KeyA" || c.keys.truthy "ArrowLeft") := by
        rw [hsame "KeyA" (by decide), hsame "ArrowLeft" (by decide)]
      have hR : (keys2.truthy "KeyD" || keys2.truthy "ArrowRight")
          = (c.keys.truthy "KeyD" || c.keys.truthy "ArrowRight") := by
        rw [hsame "KeyD" (by decide), hsame "ArrowRight" (by decide)]
      exact nextVelocity_of_wsDisabled c keys2 _ hws hL hR
  exact ⟨by rw [hv], hv⟩

/-- C8 evaluated on `movingComponent` with `wsEnabled = false`: replacing the key object by
one where `KeyW` is released and `ArrowDown` is held gives the same ws-axis velocity. -/
theorem ws_disabled_keys_ignored_witness :
    (update sampleEnv none 0 1100
        { movingComponent with
          data := { schemaDefaults with wsEnabled := false }
          keys := [("KeyD", true), ("KeyW", false), ("ArrowDown", true)] }).velocity.get Axis.z
      = (update sampleEnv none 0 1100
        { movingComponent with
          data := { schemaDefaults with wsEnabled := false } }).velocity.get Axis.z :=
  (ws_disabled_keys_ignored sampleEnv none 0 1100
    { movingComponent with data := { schemaDefaults with wsEnabled := false } }
    [("KeyD", true), ("KeyW", false), ("ArrowDown", true)] rfl
    (by
      intro name hn
      simp only [List.mem_cons, List.mem_singleton, not_or, List.not_mem_nil, or_false] at hn
      obtain ⟨h1, h2, h3, h4⟩ := hn
      simp [Keys.truthy_cons, Keys.truthy_nil, movingComponent, h1, h4])).1

/-! ## Pause -/

/-- C9. After `pause`, `onBlur`, `onVisibilityChange` with the document hidden, or `remove`,
the key object is empty, so every name reads as not pressed; a following tick that is not a
reset performs only the two decay assignments: the component on `adAxis`, then the one on
`wsAxis`, is multiplied by `1 - easing * delta`, with no acceleration term. For distinct
axes each configured component is the old one times `1 - easing * delta` (when the two axes
coincide that one component is multiplied twice). -/
theorem pause_then_tick (env : Env) (c s : Component) (dateNow time : ℚ)
    (hs : s = pause c ∨ s = onBlur c ∨ s = onVisibilityChange true c ∨ s = remove c)
    (hdelta : elapsed s dateNow time ≤ MAX_DELTA) :
    s.keys = []
    ∧ (∀ name : String, s.keys.truthy name = false)
    ∧ (tick env dateNow time s).velocity
        = (c.velocity.set c.data.adAxis
            (c.velocity.get c.data.adAxis * (1 - c.data.easing * elapsed s dateNow time))).set
          c.data.wsAxis
            ((c.velocity.set c.data.adAxis
                (c.velocity.get c.data.adAxis
                  * (1 - c.data.easing * elapsed s dateNow time))).get c.data.wsAxis
              * (1 - c.data.easing * elapsed s dateNow time))
    ∧ (c.data.adAxis ≠ c.data.wsAxis →
        (tick env dateNow time s).velocity.get c.data.adAxis
          = c.velocity.get c.data.adAxis * (1 - c.data.easing * elapsed s dateNow time)
        ∧ (tick env dateNow time s).velocity.get c.data.wsAxis
          = c.velocity.get c.data.wsAxis * (1 - c.data.easing * elapsed s dateNow time)) := by
  have hf : s.keys = [] ∧ s.velocity = c.velocity ∧ s.data = c.data := by
    rcases hs with rfl | rfl | rfl | rfl <;> exact ⟨rfl, rfl, rfl⟩
  obtain ⟨hk, hv, hd⟩ := hf
  have hmul : ∀ q : ℚ, q - q * c.data.easing * elapsed s dateNow time
      = q * (1 - c.data.easing * elapsed s dateNow time) := by
    intro q; ring
  have hvel : (tick env dateNow time s).velocity
        = (c.velocity.set c.data.adAxis
            (c.velocity.get c.data.adAxis * (1 - c.data.easing * elapsed s dateNow time))).set
          c.data.wsAxis
            ((c.velocity.set c.data.adAxis
                (c.velocity.get c.data.adAxis
                  * (1 - c.data.easing * elapsed s dateNow time))).get c.data.wsAxis
              * (1 - c.data.easing * elapsed s dateNow time)) := by
    rw [tick_velocity_of_le env s dateNow time hdelta,
      nextVelocity_of_idle s _ (by rw [hk]; rfl) (by rw [hk]; rfl) (by rw [hk]; rfl)
        (by rw [hk]; rfl), hv, hd]
    simp only [hmul]
  refine ⟨hk, fun name => by rw [hk]; rfl, hvel, fun hax => ?_⟩
  rw [hvel]
  constructor
  · rw [Vector3.get_set_of_ne _ (Ne.symm hax), Vector3.get_set_same]
  · rw [Vector3.get_set_same, Vector3.get_set_of_ne _ hax]

/-- C9 evaluated on `movingComponent` (keys `KeyD` and `KeyW` held, velocity `(1, 2, 3)`):
after `pause` no key is stored and a tick with `delta = 0.1` multiplies the two configured
components by `1 - 20 * 0.1 = -1`. -/
theorem pause_then_tick_witness :
    (pause movingComponent).keys = []
    ∧ (tick sampleEnv 0 1100 (pause movingComponent)).velocity = ⟨-1, 2, -3⟩ := by
  have hd : elapsed (pause movingComponent) 0 1100 ≤ MAX_DELTA := by
    norm_num [elapsed, pause, movingComponent, prevTimeOr, MAX_DELTA]
  have h := pause_then_tick sampleEnv movingComponent (pause movingComponent) 0 1100 (Or.inl rfl) hd
  refine ⟨h.1, h.2.2.1.trans ?_⟩
  norm_num [elapsed, pause, movingComponent, prevTimeOr, schemaDefaults, Vector3.set,
    Vector3.get]

/-! ## Key events -/

/-- After `b` is stored under `name`, the name reads `b`. -/
theorem Keys.lookup_store_same (keys : Keys) (name : String) (b : Bool) :
    (Keys.store keys name b).lookup name = some b := by
  induction keys with
  | nil => simp [Keys.store, List.lookup]
  | cons p rest ih =>
    obtain ⟨n, v⟩ := p
    by_cases h : n = name
    · simp [Keys.store, h, List.lookup]
    · have hb : (name == n) = false := by simpa using Ne.symm h
      simp [Keys.store, h, List.lookup, hb, ih]

/-- After `b` is stored under `name`, every other name reads what it read before. -/
theorem Keys.lookup_store_of_ne (keys : Keys) (name other : String) (b : Bool)
    (h : other ≠ name) :
    (Keys.store keys name b).lookup other = keys.lookup other := by
  have hb : (other == name) = false := by simpa using h
  induction keys with
  | nil => simp [Keys.store, List.lookup, hb]
  | cons p rest ih =>
    obtain ⟨n, v⟩ := p
    by_cases hn : n = name
    · subst hn
      simp [Keys.store, List.lookup, hb]
    · by_cases ho : other = n
      · subst ho
        simp [Keys.store, hn, List.lookup]
      · have hb2 : (other == n) = false := by simpa using ho
        simp [Keys.store, hn, List.lookup, hb2, ih]

/-- The assignment to `__proto__` stores nothing. -/
theorem Keys.assign_proto (keys : Keys) (b : Bool) : Keys.assign keys "__proto__" b = keys := by
  simp [Keys.assign]

/-- After `keys[name] = b` with a name other than `__proto__`, the name reads `b`. -/
theorem Keys.lookup_assign_same (keys : Keys) (name : String) (b : Bool)
    (hname : name ≠ "__proto__") :
    (Keys.assign keys name b).lookup name = some b := by
  rw [Keys.assign, if_neg hname]
  exact Keys.lookup_store_same keys name b

/-- After `keys[name] = b`, every other name reads what it read before. -/
theorem Keys.lookup_assign_of_ne (keys : Keys) (name other : String) (b : Bool)
    (h : other ≠ name) :
    (Keys.assign keys name b).lookup other = keys.lookup other := by
  rw [Keys.assign]
  split_ifs
  · rfl
  · exact Keys.lookup_store_of_ne keys name other b h

/-- C10, counterexample. A captured key-down whose native code is `__proto__` is resolved to
that identifier, yet the assignment `this.keys[code] = true` stores nothing: the key object
of a fresh component stays empty and the identifier does not read as pressed. -/
theorem proto_key_not_pressed :
    sampleEnv.shouldCaptureKeyEvent ⟨some "__proto__", 0⟩ = true
    ∧ eventCode sampleEnv ⟨some "__proto__", 0⟩ = some "__proto__"
    ∧ (onKeyDown sampleEnv ⟨some "__proto__", 0⟩ (init schemaDefaults sampleEntity)).keys = []
    ∧ (onKeyDown sampleEnv ⟨some "__proto__", 0⟩ (init schemaDefaults sampleEntity)).keys.lookup
        "__proto__" ≠ some true
    ∧ (onKeyDown sampleEnv ⟨some "__proto__", 0⟩ (init schemaDefaults sampleEntity)).keys.truthy
        "__proto__" = false := by
  have hk : (onKeyDown sampleEnv ⟨some "__proto__", 0⟩ (init schemaDefaults sampleEntity)).keys
      = [] := by
    simp [onKeyDown, sampleEnv, eventCode, propertyName, init, Keys.assign]
  refine ⟨rfl, ?_, hk, ?_, ?_⟩
  · simp [eventCode]
  · rw [hk]; simp [List.lookup]
  · rw [hk]; rfl

/-- C10, amended. An event rejected by `shouldCaptureKeyEvent` leaves the component unchanged.
For a captured event whose identifier is `id`, the native `event.code` when it is present and
not empty, else the `KEYCODE_TO_CODE` entry of `event.keyCode`, and `id` is not `__proto__`:
`onKeyDown` stores `true` under `id`, `onKeyUp` stores `false` under `id`, every other name
reads as before, and the velocity and every field other than `keys` are unchanged. -/
theorem key_handlers (env : Env) (event : KeyboardEvent) (c : Component) :
    (env.shouldCaptureKeyEvent event = false →
      onKeyDown env event c = c ∧ onKeyUp env event c = c)
    ∧ (env.shouldCaptureKeyEvent event = true → ∀ id : String, id ≠ "__proto__" →
        ((event.code = some id ∧ id ≠ "")
          ∨ ((event.code = none ∨ event.code = some "")
              ∧ env.KEYCODE_TO_CODE event.keyCode = some id)) →
        (onKeyDown env event c).keys.lookup id = some true
        ∧ (onKeyUp env event c).keys.lookup id = some false
        ∧ (∀ name : String, name ≠ id →
            (onKeyDown env event c).keys.lookup name = c.keys.lookup name
            ∧ (onKeyUp env event c).keys.lookup name = c.keys.lookup name)
        ∧ (onKeyDown env event c).velocity = c.velocity
        ∧ (onKeyUp env event c).velocity = c.velocity
        ∧ { onKeyDown env event c with keys := c.keys } = c
        ∧ { onKeyUp env event c with keys := c.keys } = c) := by
  constructor
  · intro h
    simp [onKeyDown, onKeyUp, h]
  · intro h id hproto hid
    have hcode : propertyName (eventCode env event) = id := by
      rcases hid with ⟨hc, hne⟩ | ⟨hc | hc, ht⟩
      · simp [eventCode, hc, hne, propertyName]
      · simp [eventCode, hc, ht, propertyName]
      · simp [eventCode, hc, ht, propertyName]
    have hdown : onKeyDown env event c = { c with keys := c.keys.assign id true } := by
      simp [onKeyDown, h, hcode]
    have hup : onKeyUp env event c = { c with keys := c.keys.assign id false } := by
      simp [onKeyUp, h, hcode]
    rw [hdown, hup]
    refine ⟨Keys.lookup_assign_same _ _ _ hproto, Keys.lookup_assign_same _ _ _ hproto, ?_,
      rfl, rfl, rfl, rfl⟩
    intro name hname
    exact ⟨Keys.lookup_assign_of_ne _ _ _ _ hname, Keys.lookup_assign_of_ne _ _ _ _ hname⟩

/-- The amended C10 evaluated on `movingComponent` (keys `KeyD` and `KeyW` held, `KeyA` never
seen): a captured key-down with no native code and key code `65` creates the entry `KeyA`
with `true`; a captured key-up of `KeyD` turns `KeyD` from `true` to `false` and leaves
`KeyW` pressed. -/
theorem key_handlers_witness :
    movingComponent.keys.lookup "KeyA" = none
    ∧ (onKeyDown sampleEnv ⟨none, 65⟩ movingComponent).keys.lookup "KeyA" = some true
    ∧ movingComponent.keys.lookup "KeyD" = some true
    ∧ (onKeyUp sampleEnv ⟨some "KeyD", 0⟩ movingComponent).keys.lookup "KeyD" = some false
    ∧ (onKeyUp sampleEnv ⟨some "KeyD", 0⟩ movingComponent).keys.lookup "KeyW" = some true :=
  ⟨by simp [movingComponent, List.lookup],
   ((key_handlers sampleEnv ⟨none, 65⟩ movingComponent).2 rfl "KeyA" (by decide)
      (Or.inr ⟨Or.inl rfl, rfl⟩)).1,
   by simp [movingComponent, List.lookup],
   ((key_handlers sampleEnv ⟨some "KeyD", 0⟩ movingComponent).2 rfl "KeyD" (by decide)
      (Or.inl ⟨rfl, by decide⟩)).2.1,
   (((key_handlers sampleEnv ⟨some "KeyD", 0⟩ movingComponent).2 rfl "KeyD" (by decide)
      (Or.inl ⟨rfl, by decide⟩)).2.2.1 "KeyW" (by decide)).2.trans (by
        simp [movingComponent, List.lookup])⟩

/-! ## Unresolvable key events -/

/-- C11, counterexample. A captured key-down with no native code and the key code `13`, which
the table does not list, creates the entry `"undefined"` in the empty key object of a fresh
component; the matching key-up then stores `false` under it. -/
theorem unresolved_key_creates_entry :
    eventCode sampleEnv ⟨none, 13⟩ = none
    ∧ (init schemaDefaults sampleEntity).keys = []
    ∧ (onKeyDown sampleEnv ⟨none, 13⟩ (init schemaDefaults sampleEntity)).keys
        = [("undefined", true)]
    ∧ (onKeyUp sampleEnv ⟨none, 13⟩
        (onKeyDown sampleEnv ⟨none, 13⟩ (init schemaDefaults sampleEntity))).keys
        = [("undefined", false)]
    ∧ (onKeyDown sampleEnv ⟨none, 13⟩ (init schemaDefaults sampleEntity)).keys
        ≠ (init schemaDefaults sampleEntity).keys := by
  refine ⟨rfl, rfl, ?_, ?_, ?_⟩
  · simp [onKeyDown, sampleEnv, eventCode, sampleTable, propertyName, init, Keys.assign,
      Keys.store]
  · simp [onKeyUp, onKeyDown, sampleEnv, eventCode, sampleTable, propertyName, init,
      Keys.assign, Keys.store]
  · simp [onKeyDown, sampleEnv, eventCode, sampleTable, propertyName, init, Keys.assign,
      Keys.store]

/-- C11, amended. For a captured event whose identifier cannot be resolved (no native code,
or an empty one, and no table entry for its key code), `onKeyDown` stores `true` and
`onKeyUp` stores `false` under the name `"undefined"`; every other name reads as before and
every field other than `keys` is unchanged. -/
theorem unresolved_key_handlers (env : Env) (event : KeyboardEvent) (c : Component)
    (hcap : env.shouldCaptureKeyEvent event = true)
    (hcode : event.code = none ∨ event.code = some "")
    (htable : env.KEYCODE_TO_CODE event.keyCode = none) :
    (onKeyDown env event c).keys = c.keys.assign "undefined" true
    ∧ (onKeyUp env event c).keys = c.keys.assign "undefined" false
    ∧ (onKeyDown env event c).keys.lookup "undefined" = some true
    ∧ (onKeyUp env event c).keys.lookup "undefined" = some false
    ∧ (∀ name : String, name ≠ "undefined" →
        (onKeyDown env event c).keys.lookup name = c.keys.lookup name
        ∧ (onKeyUp env event c).keys.lookup name = c.keys.lookup name)
    ∧ { onKeyDown env event c with keys := c.keys } = c
    ∧ { onKeyUp env event c with keys := c.keys } = c := by
  have hnone : eventCode env event = none := by
    rcases hcode with hc | hc <;> simp [eventCode, hc, htable]
  have hdown : onKeyDown env event c = { c with keys := c.keys.assign "undefined" true } := by
    simp [onKeyDown, hcap, hnone, propertyName]
  have hup : onKeyUp env event c = { c with keys := c.keys.assign "undefined" false } := by
    simp [onKeyUp, hcap, hnone, propertyName]
  rw [hdown, hup]
  refine ⟨rfl, rfl, Keys.lookup_assign_same _ _ _ (by decide),
    Keys.lookup_assign_same _ _ _ (by decide), ?_, rfl, rfl⟩
  intro name hname
  exact ⟨Keys.lookup_assign_of_ne _ _ _ _ hname, Keys.lookup_assign_of_ne _ _ _ _ hname⟩

/-- The amended C11 evaluated on `movingComponent` and a key-down with key code `13`: the
entry `"undefined"` is appended and `KeyW` still reads `true`. -/
theorem unresolved_key_handlers_witness :
    (onKeyDown sampleEnv ⟨none, 13⟩ movingComponent).keys
        = [("KeyD", true), ("KeyW", true), ("undefined", true)]
    ∧ (onKeyDown sampleEnv ⟨none, 13⟩ movingComponent).keys.lookup "KeyW" = some true := by
  have h := unresolved_key_handlers sampleEnv ⟨none, 13⟩ movingComponent rfl (Or.inl rfl) rfl
  refine ⟨h.1.trans ?_, ((h.2.2.2.2.1 "KeyW" (by decide)).1).trans ?_⟩
  · simp [movingComponent, Keys.assign, Keys.store]
  · simp [movingComponent, List.lookup]

/-! ## Displacement without a rotation -/

/-- C12. When the entity has no rotation available, a tick that is not a reset moves the
position by the velocity it has just stored multiplied by `delta`, component by component,
and sends the same three numbers to `object3D`; no rotation is applied. -/
theorem tick_displacement_unrotated (env : Env) (c : Component) (dateNow time : ℚ)
    (hrot : c.el.rotation = none) (hdelta : elapsed c dateNow time ≤ MAX_DELTA) :
    getMovementVector env (tick env dateNow time c) (elapsed c dateNow time)
        = ⟨(tick env dateNow time c).velocity.x * elapsed c dateNow time,
           (tick env dateNow time c).velocity.y * elapsed c dateNow time,
           (tick env dateNow time c).velocity.z * elapsed c dateNow time⟩
    ∧ (tick env dateNow time c).el.position
        = ⟨c.el.position.x + (tick env dateNow time c).velocity.x * elapsed c dateNow time,
           c.el.position.y + (tick env dateNow time c).velocity.y * elapsed c dateNow time,
           c.el.position.z + (tick env dateNow time c).velocity.z * elapsed c dateNow time⟩
    ∧ (tick env dateNow time c).el.object3D
        = c.el.object3D ++
          [(Axis.x, (tick env dateNow time c).velocity.x * elapsed c dateNow time),
           (Axis.y, (tick env dateNow time c).velocity.y * elapsed c dateNow time),
           (Axis.z, (tick env dateNow time c).velocity.z * elapsed c dateNow time)] := by
  have hmv : movementVector env c time (elapsed c dateNow time)
      = (nextVelocity c (elapsed c dateNow time)).multiplyScalar (elapsed c dateNow time) := by
    simp only [movementVector, getMovementVector, hrot]
  rw [tick, update_of_not_guard env none dateNow time c rfl hdelta, hmv]
  refine ⟨?_, rfl, rfl⟩
  simp only [getMovementVector, hrot]
  rfl

/-- C12 evaluated on `movingComponent` after `100` ms: the velocity becomes
`(5.5, 2, -9.5)` and the position moves from the origin to `(0.55, 0.2, -0.95)`. -/
theorem tick_displacement_unrotated_witness :
    elapsed movingComponent 0 1100 ≤ MAX_DELTA
    ∧ (tick sampleEnv 0 1100 movingComponent).velocity = ⟨11 / 2, 2, -19 / 2⟩
    ∧ (tick sampleEnv 0 1100 movingComponent).el.position = ⟨11 / 20, 1 / 5, -19 / 20⟩ := by
  have hd : elapsed movingComponent 0 1100 ≤ MAX_DELTA := by
    norm_num [elapsed, movingComponent, prevTimeOr, MAX_DELTA]
  have hv : (tick sampleEnv 0 1100 movingComponent).velocity = ⟨11 / 2, 2, -19 / 2⟩ := by
    rw [tick_velocity_of_le sampleEnv movingComponent 0 1100 hd]
    simp [nextVelocity, elapsed, movingComponent, prevTimeOr, schemaDefaults, Keys.truthy,
      List.lookup, Vector3.set, Vector3.get]
    norm_num
  refine ⟨hd, hv, (tick_displacement_unrotated sampleEnv movingComponent 0 1100 rfl hd).2.1.trans
    ?_⟩
  rw [hv]
  norm_num [elapsed, movingComponent, prevTimeOr, sampleEntity]


/-! ## The axis that is not configured -/

/-- Reading a component of a conditional vector. -/
theorem Vector3.get_ite (p : Prop) [Decidable p] (u v : Vector3) (a : Axis) :
    (if p then u else v).get a = if p then u.get a else v.get a := by
  split_ifs <;> rfl

/-- A call of `update` writes the velocity only on `adAxis` and `wsAxis`. -/
theorem update_velocity_get_of_ne (env : Env) (previousData : Option Data)
    (dateNow time : ℚ) (c : Component) (a : Axis)
    (had : c.data.adAxis ≠ a) (hws : c.data.wsAxis ≠ a) :
    (update env previousData dateNow time c).velocity.get a = c.velocity.get a := by
  by_cases h : previousData.isSome = true ∨ elapsed c dateNow time > MAX_DELTA
  · rw [update_of_guard env previousData dateNow time c h]
    simp [had, hws]
  · rw [not_or] at h
    have hp : previousData = none := by
      cases previousData with
      | none => rfl
      | some d => exact absurd rfl h.1
    rw [update_of_not_guard env previousData dateNow time c hp (not_lt.mp h.2)]
    simp only [nextVelocity, Vector3.get_ite, Vector3.get_set_of_ne _ had,
      Vector3.get_set_of_ne _ hws, ite_self]

/-- C13. For every tick, a reset or not, whatever the keys, the flags, `delta` and the
rotation, the velocity component on an axis that is neither `adAxis` nor `wsAxis` is left
as it was. -/
theorem tick_third_axis_unchanged (env : Env) (c : Component) (dateNow time : ℚ) (a : Axis)
    (had : a ≠ c.data.adAxis) (hws : a ≠ c.data.wsAxis) :
    (tick env dateNow time c).velocity.get a = c.velocity.get a :=
  update_velocity_get_of_ne env none dateNow time c a (Ne.symm had) (Ne.symm hws)

/-- C13 evaluated on `movingComponent` (axes `x` and `z`, keys held) after `100` ms: the
`y` component is still `2`. -/
theorem tick_third_axis_unchanged_witness :
    elapsed movingComponent 0 1100 ≤ MAX_DELTA
    ∧ (tick sampleEnv 0 1100 movingComponent).velocity.get Axis.y = 2 := by
  have hd : elapsed movingComponent 0 1100 ≤ MAX_DELTA := by
    norm_num [elapsed, movingComponent, prevTimeOr, MAX_DELTA]
  exact ⟨hd, (tick_third_axis_unchanged sampleEnv movingComponent 0 1100 Axis.y
    (by decide) (by decide)).trans rfl⟩

/-! ## Displacement with a rotation -/

/-- With a rotation available, `getMovementVector` passes to `applyEuler` the velocity scaled
by `delta` and the Euler made of the pitch (zero unless `fly`), the yaw and a roll of `0`. -/
theorem getMovementVector_of_rotation (env : Env) (c : Component) (delta : ℚ) (r : Vector3)
    (hrot : c.el.rotation = some r) :
    getMovementVector env c delta
      = env.applyEuler (c.velocity.multiplyScalar delta)
          ⟨env.degToRad (if c.data.fly then r.x else 0), env.degToRad r.y, 0, "YXZ"⟩ := by
  simp only [getMovementVector, hrot, Euler.set]
  cases c.data.fly <;> rfl

/-- C14, counterexample. In `rightAngleEnv`, whose rotation is exact at right angles, a tick
of `rolledComponent` (roll of `90` degrees, no pitch, no yaw, `KeyD` held, `delta = 0.1`)
stores the velocity `(6.5, 0, 0)` and moves the position by `(0.65, 0, 0)`, the raw
displacement, while the rotation built from the three angles, roll included, turns the raw
displacement into `(0, 0.65, 0)`. -/
theorem roll_not_applied :
    rolledComponent.el.rotation = some ⟨0, 0, 90⟩
    ∧ (tick rightAngleEnv 0 1100 rolledComponent).velocity = ⟨13 / 2, 0, 0⟩
    ∧ (tick rightAngleEnv 0 1100 rolledComponent).el.position = ⟨13 / 20, 0, 0⟩
    ∧ rightAngleEnv.applyEuler
        ((tick rightAngleEnv 0 1100 rolledComponent).velocity.multiplyScalar (1 / 10))
        ⟨rightAngleEnv.degToRad 0, rightAngleEnv.degToRad 0, rightAngleEnv.degToRad 90, "YXZ"⟩
        = ⟨0, 13 / 20, 0⟩
    ∧ (tick rightAngleEnv 0 1100 rolledComponent).el.position
        ≠ ⟨rolledComponent.el.position.x + 0, rolledComponent.el.position.y + 13 / 20,
           rolledComponent.el.position.z + 0⟩ := by
  have hd : elapsed rolledComponent 0 1100 ≤ MAX_DELTA := by
    norm_num [elapsed, rolledComponent, prevTimeOr, MAX_DELTA]
  have he : elapsed rolledComponent 0 1100 = 1 / 10 := by
    norm_num [elapsed, rolledComponent, prevTimeOr]
  have hnv : nextVelocity rolledComponent (1 / 10) = ⟨13 / 2, 0, 0⟩ := by
    simp [nextVelocity, rolledComponent, schemaDefaults, Keys.truthy, List.lookup,
      Vector3.set, Vector3.get]
    norm_num
  have hv : (tick rightAngleEnv 0 1100 rolledComponent).velocity = ⟨13 / 2, 0, 0⟩ := by
    rw [tick_velocity_of_le rightAngleEnv rolledComponent 0 1100 hd, he, hnv]
  have hpos : (tick rightAngleEnv 0 1100 rolledComponent).el.position = ⟨13 / 20, 0, 0⟩ := by
    rw [tick, update_of_not_guard rightAngleEnv none 0 1100 rolledComponent rfl hd, he]
    simp only [movementVector, hnv]
    simp [getMovementVector, rolledComponent, schemaDefaults, rightAngleEnv, applyEulerYXZ,
      quarterCos, quarterSin, Euler.set, Vector3.multiplyScalar]
    norm_num
  refine ⟨rfl, hv, hpos, ?_, ?_⟩
  · rw [hv]
    simp [rightAngleEnv, applyEulerYXZ, quarterCos, quarterSin, Vector3.multiplyScalar]
    norm_num
  · rw [hpos]
    simp [rolledComponent]

/-- C14, amended. When a rotation is available, a tick that is not a reset moves the
position by the raw displacement (the stored velocity times `delta`) passed through
`applyEuler` with the Euler of order `YXZ` made of the pitch, replaced by zero when `fly` is
false, the yaw, and a roll of `0`: the roll of the entity is not used. -/
theorem tick_displacement_rotated (env : Env) (c : Component) (dateNow time : ℚ)
    (r : Vector3) (hrot : c.el.rotation = some r)
    (hdelta : elapsed c dateNow time ≤ MAX_DELTA) :
    (tick env dateNow time c).el.position
      = ⟨c.el.position.x
          + (env.applyEuler
              ((tick env dateNow time c).velocity.multiplyScalar (elapsed c dateNow time))
              ⟨env.degToRad (if c.data.fly then r.x else 0), env.degToRad r.y, 0, "YXZ"⟩).x,
         c.el.position.y
          + (env.applyEuler
              ((tick env dateNow time c).velocity.multiplyScalar (elapsed c dateNow time))
              ⟨env.degToRad (if c.data.fly then r.x else 0), env.degToRad r.y, 0, "YXZ"⟩).y,
         c.el.position.z
          + (env.applyEuler
              ((tick env dateNow time c).velocity.multiplyScalar (elapsed c dateNow time))
              ⟨env.degToRad (if c.data.fly then r.x else 0), env.degToRad r.y, 0, "YXZ"⟩).z⟩
    := by
  have hmv : movementVector env c time (elapsed c dateNow time)
      = env.applyEuler
          ((nextVelocity c (elapsed c dateNow time)).multiplyScalar (elapsed c dateNow time))
          ⟨env.degToRad (if c.data.fly then r.x else 0), env.degToRad r.y, 0, "YXZ"⟩ :=
    getMovementVector_of_rotation env _ _ r hrot
  rw [tick, update_of_not_guard env none dateNow time c rfl hdelta, hmv]

/-- The amended C14 evaluated on `rolledComponent` in `rightAngleEnv`: with the roll of `90`
degrees the position moves by the raw displacement `(0.65, 0, 0)`. -/
theorem tick_displacement_rotated_witness :
    elapsed rolledComponent 0 1100 ≤ MAX_DELTA
    ∧ (tick rightAngleEnv 0 1100 rolledComponent).el.position = ⟨13 / 20, 0, 0⟩ := by
  have hd : elapsed rolledComponent 0 1100 ≤ MAX_DELTA := by
    norm_num [elapsed, rolledComponent, prevTimeOr, MAX_DELTA]
  have he : elapsed rolledComponent 0 1100 = 1 / 10 := by
    norm_num [elapsed, rolledComponent, prevTimeOr]
  have hv : (tick rightAngleEnv 0 1100 rolledComponent).velocity = ⟨13 / 2, 0, 0⟩ := by
    rw [tick_velocity_of_le rightAngleEnv rolledComponent 0 1100 hd, he]
    simp [nextVelocity, rolledComponent, schemaDefaults, Keys.truthy, List.lookup,
      Vector3.set, Vector3.get]
    norm_num
  refine ⟨hd, (tick_displacement_rotated rightAngleEnv rolledComponent 0 1100 ⟨0, 0, 90⟩ rfl
    hd).trans ?_⟩
  rw [hv, he]
  simp [rolledComponent, schemaDefaults, rightAngleEnv, applyEulerYXZ, quarterCos,
    quarterSin, Vector3.multiplyScalar]
  norm_num


/-! ## Pitch without `fly` -/

/-- C15. With `fly = false`, two calls of `update` on components that differ only in the
pitch of the entity rotation store the same velocity and the same position, and send the
same translations to `object3D`: the displacement does not depend on the pitch. -/
theorem update_pitch_ignored (env : Env) (previousData : Option Data) (dateNow time : ℚ)
    (c : Component) (pitch1 pitch2 yaw roll : ℚ) (hfly : c.data.fly = false) :
    (update env previousData dateNow time
        { c with el := { c.el with rotation := some ⟨pitch1, yaw, roll⟩ } }).el.position
      = (update env previousData dateNow time
        { c with el := { c.el with rotation := some ⟨pitch2, yaw, roll⟩ } }).el.position
    ∧ (update env previousData dateNow time
        { c with el := { c.el with rotation := some ⟨pitch1, yaw, roll⟩ } }).el.object3D
      = (update env previousData dateNow time
        { c with el := { c.el with rotation := some ⟨pitch2, yaw, roll⟩ } }).el.object3D
    ∧ (update env previousData dateNow time
        { c with el := { c.el with rotation := some ⟨pitch1, yaw, roll⟩ } }).velocity
      = (update env previousData dateNow time
        { c with el := { c.el with rotation := some ⟨pitch2, yaw, roll⟩ } }).velocity := by
  have hmv : ∀ p : ℚ,
      movementVector env { c with el := { c.el with rotation := some ⟨p, yaw, roll⟩ } } time
          (elapsed c dateNow time)
        = env.applyEuler
            ((nextVelocity c (elapsed c dateNow time)).multiplyScalar (elapsed c dateNow time))
            ⟨env.degToRad 0, env.degToRad yaw, 0, "YXZ"⟩ := by
    intro p
    have h := getMovementVector_of_rotation env
      { c with
        el := { c.el with rotation := some ⟨p, yaw, roll⟩ }
        prevTime := some time
        velocity := nextVelocity c (elapsed c dateNow time) }
      (elapsed c dateNow time) ⟨p, yaw, roll⟩ rfl
    simp only [hfly, Bool.false_eq_true, if_false] at h
    exact h
  by_cases h : previousData.isSome = true ∨ elapsed c dateNow time > MAX_DELTA
  · rw [update_of_guard env previousData dateNow time
        { c with el := { c.el with rotation := some ⟨pitch1, yaw, roll⟩ } } h,
      update_of_guard env previousData dateNow time
        { c with el := { c.el with rotation := some ⟨pitch2, yaw, roll⟩ } } h]
    exact ⟨rfl, rfl, rfl⟩
  · rw [not_or] at h
    have hp : previousData = none := by
      cases previousData with
      | none => rfl
      | some d => exact absurd rfl h.1
    have h1 := update_of_not_guard env previousData dateNow time
        { c with el := { c.el with rotation := some ⟨pitch1, yaw, roll⟩ } } hp (not_lt.mp h.2)
    have h2 := update_of_not_guard env previousData dateNow time
        { c with el := { c.el with rotation := some ⟨pitch2, yaw, roll⟩ } } hp (not_lt.mp h.2)
    have e1 := hmv pitch1
    have e2 := hmv pitch2
    rw [h1, h2]
    refine ⟨?_, ?_, rfl⟩
    · show (⟨_, _, _⟩ : Vector3) = ⟨_, _, _⟩
      rw [show movementVector env
          { c with el := { c.el with rotation := some ⟨pitch1, yaw, roll⟩ } } time
          (elapsed { c with el := { c.el with rotation := some ⟨pitch1, yaw, roll⟩ } }
            dateNow time) = _ from e1,
        show movementVector env
          { c with el := { c.el with rotation := some ⟨pitch2, yaw, roll⟩ } } time
          (elapsed { c with el := { c.el with rotation := some ⟨pitch2, yaw, roll⟩ } }
            dateNow time) = _ from e2]
    · show c.el.object3D ++ _ = c.el.object3D ++ _
      rw [show movementVector env
          { c with el := { c.el with rotation := some ⟨pitch1, yaw, roll⟩ } } time
          (elapsed { c with el := { c.el with rotation := some ⟨pitch1, yaw, roll⟩ } }
            dateNow time) = _ from e1,
        show movementVector env
          { c with el := { c.el with rotation := some ⟨pitch2, yaw, roll⟩ } } time
          (elapsed { c with el := { c.el with rotation := some ⟨pitch2, yaw, roll⟩ } }
            dateNow time) = _ from e2]

/-- C15 evaluated on `rolledComponent` in `rightAngleEnv`: a pitch of `90` degrees and a pitch
of `0` give the same position after a tick. -/
theorem update_pitch_ignored_witness :
    rolledComponent.data.fly = false
    ∧ (update rightAngleEnv none 0 1100
        { rolledComponent with
          el := { rolledComponent.el with rotation := some ⟨90, 0, 0⟩ } }).el.position
      = (update rightAngleEnv none 0 1100
        { rolledComponent with
          el := { rolledComponent.el with rotation := some ⟨0, 0, 0⟩ } }).el.position :=
  ⟨rfl, (update_pitch_ignored rightAngleEnv none 0 1100 rolledComponent 90 0 0 0 rfl).1⟩

/-! ## A quarter turn of yaw -/

/-- C16. Let `applyEuler` be the rotation `applyEulerYXZ` for a cosine and a sine that are
exact at `0` and at `90` degrees. With the default axes (`adAxis = x`, `wsAxis = z`), a
velocity `(v, 0, 0)` along the ad-axis only and a rotation of `90` degrees of yaw with zero
pitch, the movement vector is `(0, 0, -(v * delta))`: zero along the ad-axis and the vertical
axis, of size `|v| * |delta|` along the ws-axis. -/
theorem movement_after_quarter_yaw (env : Env) (cos sin : ℚ → ℚ) (c : Component)
    (delta v roll : ℚ)
    (hrotate : ∀ (u : Vector3) (e : Euler), e.order = "YXZ" →
      env.applyEuler u e = applyEulerYXZ cos sin u e)
    (hc90 : cos (env.degToRad 90) = 0) (hs90 : sin (env.degToRad 90) = 1)
    (hc0 : cos (env.degToRad 0) = 1) (hs0 : sin (env.degToRad 0) = 0)
    (hcz : cos 0 = 1) (hsz : sin 0 = 0)
    (had : c.data.adAxis = Axis.x) (hws : c.data.wsAxis = Axis.z)
    (hvel : c.velocity = ⟨v, 0, 0⟩)
    (hrot : c.el.rotation = some ⟨0, 90, roll⟩) :
    getMovementVector env c delta = ⟨0, 0, -(v * delta)⟩
    ∧ (getMovementVector env c delta).get c.data.adAxis = 0
    ∧ (getMovementVector env c delta).get Axis.y = 0
    ∧ |(getMovementVector env c delta).get c.data.wsAxis| = |v| * |delta| := by
  have hm : getMovementVector env c delta = ⟨0, 0, -(v * delta)⟩ := by
    rw [getMovementVector_of_rotation env c delta ⟨0, 90, roll⟩ hrot, hrotate _ _ rfl, hvel]
    simp only [applyEulerYXZ, Vector3.multiplyScalar, ite_self, hc90, hs90, hc0, hs0, hcz,
      hsz]
    norm_num
  rw [hm, had, hws]
  refine ⟨rfl, rfl, rfl, ?_⟩
  simp only [Vector3.get]
  rw [abs_neg, abs_mul]

/-- C16 evaluated on `yawedComponent` (velocity `(2, 0, 0)`) in `rightAngleEnv` with
`delta = 0.1`: the movement vector is `(0, 0, -0.2)`. -/
theorem movement_after_quarter_yaw_witness :
    yawedComponent.el.rotation = some ⟨0, 90, 0⟩
    ∧ getMovementVector rightAngleEnv yawedComponent (1 / 10) = ⟨0, 0, -(1 / 5)⟩ := by
  have h := movement_after_quarter_yaw rightAngleEnv quarterCos quarterSin yawedComponent
    (1 / 10) 2 0 (fun _ _ _ => rfl)
    (by norm_num [rightAngleEnv, quarterCos]) (by norm_num [rightAngleEnv, quarterSin])
    (by norm_num [rightAngleEnv, quarterCos]) (by norm_num [rightAngleEnv, quarterSin])
    (by norm_num [quarterCos]) (by norm_num [quarterSin]) rfl rfl rfl rfl
  refine ⟨rfl, h.1.trans ?_⟩
  norm_num


/-! ## What a tick reads from the keys -/

/-- Two key objects for which `nextVelocity` agrees give the same result of `update`, the
key object itself apart. -/
theorem update_congr_keys (env : Env) (previousData : Option Data) (dateNow time : ℚ)
    (c : Component) (keys2 : Keys)
    (h : nextVelocity { c with keys := keys2 } (elapsed c dateNow time)
      = nextVelocity c (elapsed c dateNow time)) :
    { update env previousData dateNow time { c with keys := keys2 } with keys := c.keys }
      = update env previousData dateNow time c := by
  by_cases hg : previousData.isSome = true ∨ elapsed c dateNow time > MAX_DELTA
  · rw [update_of_guard env previousData dateNow time c hg,
      update_of_guard env previousData dateNow time { c with keys := keys2 } hg]
  · rw [not_or] at hg
    have hp : previousData = none := by
      cases previousData with
      | none => rfl
      | some d => exact absurd rfl hg.1
    have hmv : movementVector env { c with keys := keys2 } time (elapsed c dateNow time)
        = movementVector env c time (elapsed c dateNow time) := by
      simp only [movementVector, getMovementVector, h]
    have h1 := update_of_not_guard env previousData dateNow time c hp (not_lt.mp hg.2)
    have h2 := update_of_not_guard env previousData dateNow time { c with keys := keys2 } hp
      (not_lt.mp hg.2)
    rw [h1, h2]
    simp only [show elapsed { c with keys := keys2 } dateNow time = elapsed c dateNow time
      from rfl, h, hmv]

/-- The four key tests are all that `nextVelocity` reads from the key object. -/
theorem nextVelocity_congr_keys (c : Component) (keys2 : Keys) (delta : ℚ)
    (hL : (keys2.truthy "KeyA" || keys2.truthy "ArrowLeft")
      = (c.keys.truthy "KeyA" || c.keys.truthy "ArrowLeft"))
    (hR : (keys2.truthy "KeyD" || keys2.truthy "ArrowRight")
      = (c.keys.truthy "KeyD" || c.keys.truthy "ArrowRight"))
    (hF : (keys2.truthy "KeyW" || keys2.truthy "ArrowUp")
      = (c.keys.truthy "KeyW" || c.keys.truthy "ArrowUp"))
    (hB : (keys2.truthy "KeyS" || keys2.truthy "ArrowDown")
      = (c.keys.truthy "KeyS" || c.keys.truthy "ArrowDown")) :
    nextVelocity { c with keys := keys2 } delta = nextVelocity c delta := by
  simp only [nextVelocity, hL, hR, hF, hB]

/-! ## Overshoot of the decay -/

/-- C18, counterexample. `sameAxisComponent` has `adAxis = wsAxis = x`, velocity `1` on it,
easing `20` and no key held. A tick after `150` ms (`delta = 0.15`, `easing * delta = 3`) is
not a reset and multiplies the component twice by `1 - 3 = -2`: it becomes `4`, larger but of
the same sign. -/
theorem overshoot_same_axis_keeps_sign :
    sameAxisComponent.data.adAxis = sameAxisComponent.data.wsAxis
    ∧ elapsed sameAxisComponent 0 1150 = 3 / 20
    ∧ elapsed sameAxisComponent 0 1150 ≤ MAX_DELTA
    ∧ 2 < sameAxisComponent.data.easing * elapsed sameAxisComponent 0 1150
    ∧ sameAxisComponent.velocity.get sameAxisComponent.data.adAxis = 1
    ∧ (tick sampleEnv 0 1150 sameAxisComponent).velocity.get sameAxisComponent.data.adAxis = 4
    ∧ ¬ ((tick sampleEnv 0 1150 sameAxisComponent).velocity.get sameAxisComponent.data.adAxis
        * sameAxisComponent.velocity.get sameAxisComponent.data.adAxis < 0) := by
  have he : elapsed sameAxisComponent 0 1150 = 3 / 20 := by
    norm_num [elapsed, sameAxisComponent, prevTimeOr]
  have hd : elapsed sameAxisComponent 0 1150 ≤ MAX_DELTA := by
    rw [he]; norm_num [MAX_DELTA]
  have hv : (tick sampleEnv 0 1150 sameAxisComponent).velocity.get
      sameAxisComponent.data.adAxis = 4 := by
    rw [tick_velocity_of_le sampleEnv sameAxisComponent 0 1150 hd, he]
    simp [nextVelocity, sameAxisComponent, schemaDefaults, Keys.truthy, List.lookup,
      Vector3.set, Vector3.get]
    norm_num
  refine ⟨rfl, he, hd, ?_, rfl, hv, ?_⟩
  · rw [he]; norm_num [sameAxisComponent, schemaDefaults]
  · rw [hv]; norm_num [sameAxisComponent, schemaDefaults, Vector3.get]

/-- C18, amended. On a tick that is not a reset, with no key held, `adAxis ≠ wsAxis` and
`easing * delta > 2`, each configured velocity component that is not zero changes sign and
strictly grows in size. The ceiling `MAX_DELTA` does not exclude such ticks: with the easing
`20`, every `delta` with `0.1 < delta ≤ MAX_DELTA` is such a tick. -/
theorem overshoot_amplifies (env : Env) (c : Component) (dateNow time : ℚ)
    (hL : (c.keys.truthy "KeyA" || c.keys.truthy "ArrowLeft") = false)
    (hR : (c.keys.truthy "KeyD" || c.keys.truthy "ArrowRight") = false)
    (hF : (c.keys.truthy "KeyW" || c.keys.truthy "ArrowUp") = false)
    (hB : (c.keys.truthy "KeyS" || c.keys.truthy "ArrowDown") = false)
    (hax : c.data.adAxis ≠ c.data.wsAxis)
    (hdelta : elapsed c dateNow time ≤ MAX_DELTA)
    (hamp : 2 < c.data.easing * elapsed c dateNow time
      ∨ (c.data.easing = 20 ∧ 1 / 10 < elapsed c dateNow time)) :
    2 < c.data.easing * elapsed c dateNow time
    ∧ ∀ a : Axis, a = c.data.adAxis ∨ a = c.data.wsAxis → c.velocity.get a ≠ 0 →
        (tick env dateNow time c).velocity.get a * c.velocity.get a < 0
        ∧ |c.velocity.get a| < |(tick env dateNow time c).velocity.get a| := by
  have h2 : 2 < c.data.easing * elapsed c dateNow time := by
    rcases hamp with h | ⟨he, hd⟩
    · exact h
    · rw [he]; linarith
  refine ⟨h2, ?_⟩
  intro a ha hne
  have hget : (tick env dateNow time c).velocity.get a
      = c.velocity.get a * (1 - c.data.easing * elapsed c dateNow time) := by
    rw [tick_velocity_of_le env c dateNow time hdelta,
      nextVelocity_of_idle c _ hL hR hF hB]
    rcases ha with rfl | rfl
    · rw [Vector3.get_set_of_ne _ (Ne.symm hax), Vector3.get_set_same]
      ring
    · rw [Vector3.get_set_same, Vector3.get_set_of_ne _ hax]
      ring
  rw [hget]
  have hq : 1 - c.data.easing * elapsed c dateNow time < -1 := by linarith
  have hsq : 0 < c.velocity.get a * c.velocity.get a := mul_self_pos.mpr hne
  constructor
  · have : c.velocity.get a * (1 - c.data.easing * elapsed c dateNow time) * c.velocity.get a
        = (c.velocity.get a * c.velocity.get a)
          * (1 - c.data.easing * elapsed c dateNow time) := by ring
    rw [this]
    exact mul_neg_of_pos_of_neg hsq (by linarith)
  · rw [abs_mul]
    have habs : 1 < |1 - c.data.easing * elapsed c dateNow time| := by
      rw [abs_of_neg (by linarith)]
      linarith
    have hpos : 0 < |c.velocity.get a| := abs_pos.mpr hne
    calc |c.velocity.get a| = |c.velocity.get a| * 1 := (mul_one _).symm
      _ < |c.velocity.get a| * |1 - c.data.easing * elapsed c dateNow time| :=
          mul_lt_mul_of_pos_left habs hpos

/-- The amended C18 evaluated on `idleComponent` (easing `20`, velocity `1` on the ad-axis)
after `150` ms: the ad-axis velocity becomes negative and larger than `1` in size. -/
theorem overshoot_amplifies_witness :
    elapsed idleComponent 0 1150 ≤ MAX_DELTA
    ∧ (tick sampleEnv 0 1150 idleComponent).velocity.get Axis.x * 1 < 0
    ∧ |(1 : ℚ)| < |(tick sampleEnv 0 1150 idleComponent).velocity.get Axis.x| := by
  have he : elapsed idleComponent 0 1150 = 3 / 20 := by
    norm_num [elapsed, idleComponent, movingComponent, prevTimeOr]
  have hd : elapsed idleComponent 0 1150 ≤ MAX_DELTA := by
    rw [he]; norm_num [MAX_DELTA]
  have h := (overshoot_amplifies sampleEnv idleComponent 0 1150 rfl rfl rfl rfl (by decide) hd
    (Or.inr ⟨rfl, by rw [he]; norm_num⟩)).2 Axis.x (Or.inl rfl)
    (by norm_num [idleComponent, movingComponent, Vector3.get])
  exact ⟨hd, h.1, h.2⟩

/-! ## Aliases and other keys -/

/-- C19. The result of `update` depends on the key object only through the four tests
`KeyA || ArrowLeft`, `KeyD || ArrowRight`, `KeyW || ArrowUp`, `KeyS || ArrowDown`: two key
objects on which the four tests agree give the same velocity, the same entity (position and
translations) and the same stored time. So a letter key held together with its arrow alias
acts as either alone, and no other name has an effect. -/
theorem update_reads_four_tests (env : Env) (previousData : Option Data) (dateNow time : ℚ)
    (c : Component) (keys2 : Keys)
    (hL : (keys2.truthy "KeyA" || keys2.truthy "ArrowLeft")
      = (c.keys.truthy "KeyA" || c.keys.truthy "ArrowLeft"))
    (hR : (keys2.truthy "KeyD" || keys2.truthy "ArrowRight")
      = (c.keys.truthy "KeyD" || c.keys.truthy "ArrowRight"))
    (hF : (keys2.truthy "KeyW" || keys2.truthy "ArrowUp")
      = (c.keys.truthy "KeyW" || c.keys.truthy "ArrowUp"))
    (hB : (keys2.truthy "KeyS" || keys2.truthy "ArrowDown")
      = (c.keys.truthy "KeyS" || c.keys.truthy "ArrowDown")) :
    (update env previousData dateNow time { c with keys := keys2 }).velocity
      = (update env previousData dateNow time c).velocity
    ∧ (update env previousData dateNow time { c with keys := keys2 }).el
      = (update env previousData dateNow time c).el
    ∧ (update env previousData dateNow time { c with keys := keys2 }).prevTime
      = (update env previousData dateNow time c).prevTime := by
  have h := update_congr_keys env previousData dateNow time c keys2
    (nextVelocity_congr_keys c keys2 _ hL hR hF hB)
  rw [← h]
  exact ⟨rfl, rfl, rfl⟩

/-- C19 evaluated on `movingComponent` (keys `KeyD` and `KeyW`): holding in addition the
aliases `ArrowRight` and `ArrowUp` and the unrelated `Space` gives the same velocity
`(5.5, 2, -9.5)` after `100` ms. -/
theorem update_reads_four_tests_witness :
    (update sampleEnv none 0 1100
        { movingComponent with
          keys := [("KeyD", true), ("ArrowRight", true), ("KeyW", true), ("ArrowUp", true),
            ("Space", true)] }).velocity = ⟨11 / 2, 2, -19 / 2⟩ := by
  have h := (update_reads_four_tests sampleEnv none 0 1100 movingComponent
    [("KeyD", true), ("ArrowRight", true), ("KeyW", true), ("ArrowUp", true), ("Space", true)]
    (by decide) (by decide) (by decide) (by decide)).1
  refine h.trans ?_
  have hd : elapsed movingComponent 0 1100 ≤ MAX_DELTA := by
    norm_num [elapsed, movingComponent, prevTimeOr, MAX_DELTA]
  have hv := tick_velocity_of_le sampleEnv movingComponent 0 1100 hd
  rw [tick] at hv
  rw [hv]
  simp [nextVelocity, elapsed, movingComponent, prevTimeOr, schemaDefaults, Keys.truthy,
    List.lookup, Vector3.set, Vector3.get]
  norm_num


/-! ## Velocity left on an axis that is no longer configured -/

/-- A call of `update` keeps the data, the keys and the rotation of the entity. -/
theorem update_keeps (env : Env) (previousData : Option Data) (dateNow time : ℚ)
    (c : Component) :
    (update env previousData dateNow time c).data = c.data
    ∧ (update env previousData dateNow time c).keys = c.keys
    ∧ (update env previousData dateNow time c).el.rotation = c.el.rotation := by
  by_cases h : previousData.isSome = true ∨ elapsed c dateNow time > MAX_DELTA
  · rw [update_of_guard env previousData dateNow time c h]
    exact ⟨rfl, rfl, rfl⟩
  · rw [not_or] at h
    have hp : previousData = none := by
      cases previousData with
      | none => rfl
      | some d => exact absurd rfl h.1
    rw [update_of_not_guard env previousData dateNow time c hp (not_lt.mp h.2)]
    exact ⟨rfl, rfl, rfl⟩

/-- A run of ticks keeps the data, the keys and the rotation, and the velocity component on
an axis that is neither `adAxis` nor `wsAxis`. -/
theorem ticks_keeps (env : Env) (clock : List (ℚ × ℚ)) (c : Component) (a : Axis)
    (had : c.data.adAxis ≠ a) (hws : c.data.wsAxis ≠ a) :
    (ticks env clock c).data = c.data
    ∧ (ticks env clock c).keys = c.keys
    ∧ (ticks env clock c).el.rotation = c.el.rotation
    ∧ (ticks env clock c).velocity.get a = c.velocity.get a := by
  induction clock generalizing c with
  | nil => exact ⟨rfl, rfl, rfl, rfl⟩
  | cons r rest ih =>
    have hk := update_keeps env none r.1 r.2 c
    have hv := update_velocity_get_of_ne env none r.1 r.2 c a had hws
    have hstep : ticks env (r :: rest) c = ticks env rest (update env none r.1 r.2 c) := rfl
    have h := ih (update env none r.1 r.2 c) (by rw [hk.1]; exact had) (by rw [hk.1]; exact hws)
    rw [hstep]
    exact ⟨h.1.trans hk.1, h.2.1.trans hk.2.1, h.2.2.1.trans hk.2.2, h.2.2.2.trans hv⟩

/-- The state `acceleratedComponent`, step by step: the first tick leaves the component at
rest, the tick with `KeyD` held stores the velocity `(6.5, 0, 0)` and moves the position to
`(0.65, 0, 0)`, and the key-up releases `KeyD`. -/
theorem acceleratedComponent_eq :
    acceleratedComponent
      = { data := schemaDefaults
          el := { position := ⟨13 / 20, 0, 0⟩
                  rotation := none
                  object3D := [(Axis.x, 0), (Axis.y, 0), (Axis.z, 0),
                    (Axis.x, 13 / 20), (Axis.y, 0), (Axis.z, 0)] }
          velocity := ⟨13 / 2, 0, 0⟩
          keys := [("KeyD", false)]
          prevTime := some 1100
          keyListeners := true
          visibilityListeners := true } := by
  have h1 : tick sampleEnv 1700000000000 1000 (play (init schemaDefaults sampleEntity))
      = { data := schemaDefaults
          el := { position := ⟨0, 0, 0⟩
                  rotation := none
                  object3D := [(Axis.x, 0), (Axis.y, 0), (Axis.z, 0)] }
          velocity := ⟨0, 0, 0⟩
          keys := []
          prevTime := some 1000
          keyListeners := true
          visibilityListeners := true } := by
    simp [tick, update, play, init, schemaDefaults, sampleEntity, prevTimeOr, MAX_DELTA,
      Keys.truthy, List.lookup, Vector3.set, Vector3.get, getMovementVector,
      Vector3.multiplyScalar]
    norm_num
  have h2 : ∀ s : Component, onKeyDown sampleEnv ⟨some "KeyD", 68⟩ s
      = { s with keys := s.keys.assign "KeyD" true } := by
    intro s
    simp [onKeyDown, sampleEnv, eventCode, propertyName]
  have h4 : ∀ s : Component, onKeyUp sampleEnv ⟨some "KeyD", 68⟩ s
      = { s with keys := s.keys.assign "KeyD" false } := by
    intro s
    simp [onKeyUp, sampleEnv, eventCode, propertyName]
  have h3 : tick sampleEnv 1700000000100 1100
        { data := schemaDefaults
          el := { position := ⟨0, 0, 0⟩
                  rotation := none
                  object3D := [(Axis.x, 0), (Axis.y, 0), (Axis.z, 0)] }
          velocity := ⟨0, 0, 0⟩
          keys := [("KeyD", true)]
          prevTime := some 1000
          keyListeners := true
          visibilityListeners := true }
      = { data := schemaDefaults
          el := { position := ⟨13 / 20, 0, 0⟩
                  rotation := none
                  object3D := [(Axis.x, 0), (Axis.y, 0), (Axis.z, 0),
                    (Axis.x, 13 / 20), (Axis.y, 0), (Axis.z, 0)] }
          velocity := ⟨13 / 2, 0, 0⟩
          keys := [("KeyD", true)]
          prevTime := some 1100
          keyListeners := true
          visibilityListeners := true } := by
    simp [tick, update, schemaDefaults, prevTimeOr, MAX_DELTA,
      Keys.truthy, List.lookup, Vector3.set, Vector3.get, getMovementVector,
      Vector3.multiplyScalar]
    norm_num
  rw [acceleratedComponent, h1, h2]
  simp [Keys.assign, Keys.store]
  rw [h3, h4]
  simp [Keys.assign, Keys.store]

/-- The state `driftingComponent`: the reset of the configuration change zeroes the `y` and
`z` components, already zero, and leaves `6.5` on `x`. -/
theorem driftingComponent_eq :
    driftingComponent
      = { data := { schemaDefaults with adAxis := Axis.y }
          el := { position := ⟨13 / 20, 0, 0⟩
                  rotation := none
                  object3D := [(Axis.x, 0), (Axis.y, 0), (Axis.z, 0),
                    (Axis.x, 13 / 20), (Axis.y, 0), (Axis.z, 0)] }
          velocity := ⟨13 / 2, 0, 0⟩
          keys := [("KeyD", false)]
          prevTime := some 1116
          keyListeners := true
          visibilityListeners := true } := by
  rw [driftingComponent, updateData, acceleratedComponent_eq]
  rw [update_of_guard sampleEnv (some schemaDefaults) 1700000000116 1116 _ (Or.inl rfl)]
  simp [schemaDefaults, Vector3.set]

/-- A tick at the clock reading of the previous call, when that reading is not zero and the
entity has no rotation, has `delta = 0`, is not a reset, and leaves the position where it
was. -/
theorem tick_at_stored_time (env : Env) (c : Component) (dateNow t : ℚ)
    (hprev : c.prevTime = some t) (ht : t ≠ 0) (hrot : c.el.rotation = none) :
    elapsed c dateNow t = 0
    ∧ elapsed c dateNow t ≤ MAX_DELTA
    ∧ (tick env dateNow t c).el.position = c.el.position := by
  have he : elapsed c dateNow t = 0 := by
    simp [elapsed, hprev, prevTimeOr, ht]
  have hle : elapsed c dateNow t ≤ MAX_DELTA := by
    rw [he]; norm_num [MAX_DELTA]
  refine ⟨he, hle, ?_⟩
  have hmv : movementVector env c t (elapsed c dateNow t)
      = (nextVelocity c (elapsed c dateNow t)).multiplyScalar (elapsed c dateNow t) := by
    simp only [movementVector, getMovementVector, hrot]
  rw [tick, update_of_not_guard env none dateNow t c rfl hle, hmv, he]
  simp [Vector3.multiplyScalar]

/-- C20, counterexample. A tick of `driftingComponent` at the clock reading `1116` of the
call that changed the configuration has `delta = 0` and is not a reset; the `x` velocity is
still `6.5` and no key is held, yet the position stays at `(0.65, 0, 0)`: the displacement
of this later tick is zero. -/
theorem drift_tick_without_elapsed_time :
    driftingComponent.prevTime = some 1116
    ∧ driftingComponent.el.position = ⟨13 / 20, 0, 0⟩
    ∧ elapsed driftingComponent 1700000000116 1116 = 0
    ∧ elapsed driftingComponent 1700000000116 1116 ≤ MAX_DELTA
    ∧ (tick sampleEnv 1700000000116 1116 driftingComponent).velocity.x = 13 / 2
    ∧ (tick sampleEnv 1700000000116 1116 driftingComponent).el.position = ⟨13 / 20, 0, 0⟩ := by
  have hp : driftingComponent.prevTime = some 1116 := by rw [driftingComponent_eq]
  have hr : driftingComponent.el.rotation = none := by rw [driftingComponent_eq]
  have hpos : driftingComponent.el.position = ⟨13 / 20, 0, 0⟩ := by rw [driftingComponent_eq]
  have h := tick_at_stored_time sampleEnv driftingComponent 1700000000116 1116 hp
    (by norm_num) hr
  have hv : (tick sampleEnv 1700000000116 1116 driftingComponent).velocity.get Axis.x
      = driftingComponent.velocity.get Axis.x :=
    update_velocity_get_of_ne sampleEnv none 1700000000116 1116 driftingComponent Axis.x
      (by rw [driftingComponent_eq]; decide) (by rw [driftingComponent_eq]; decide)
  have hvx : driftingComponent.velocity.get Axis.x = 13 / 2 := by
    rw [driftingComponent_eq]; rfl
  exact ⟨hp, hpos, h.1, h.2.1, hv.trans hvx, h.2.2.trans hpos⟩

/-- C20, amended. The state `driftingComponent` is reached by `init`, `play`, a tick, a
key-down of `KeyD`, a tick that builds the velocity `6.5` on `x`, the key-up, and a change of
`adAxis` from `x` to `y`. The reset of that change zeroes `y` and `z` only, so `x` keeps
`6.5` while no key is held. After any run of later ticks the `x` component is still `6.5`,
never decayed, and every later tick that is not a reset moves the position along `x` by
`6.5 * delta`: a non-zero displacement for every such tick whose `delta` is not zero. -/
theorem velocity_left_on_old_axis :
    acceleratedComponent.velocity = ⟨13 / 2, 0, 0⟩
    ∧ acceleratedComponent.data.adAxis = Axis.x
    ∧ driftingComponent.data.adAxis = Axis.y
    ∧ driftingComponent.data.wsAxis = Axis.z
    ∧ driftingComponent.velocity = ⟨13 / 2, 0, 0⟩
    ∧ (∀ name : String, driftingComponent.keys.truthy name = false)
    ∧ (∀ (env : Env) (clock : List (ℚ × ℚ)),
        (ticks env clock driftingComponent).velocity.x = 13 / 2)
    ∧ (∀ (env : Env) (clock : List (ℚ × ℚ)) (dateNow time : ℚ),
        elapsed (ticks env clock driftingComponent) dateNow time ≤ MAX_DELTA →
        (tick env dateNow time (ticks env clock driftingComponent)).el.position.x
            = (ticks env clock driftingComponent).el.position.x
              + 13 / 2 * elapsed (ticks env clock driftingComponent) dateNow time
        ∧ (elapsed (ticks env clock driftingComponent) dateNow time ≠ 0 →
            (tick env dateNow time (ticks env clock driftingComponent)).el.position.x
              ≠ (ticks env clock driftingComponent).el.position.x)) := by
  have hacc := acceleratedComponent_eq
  have hdr := driftingComponent_eq
  have hkeep : ∀ (env : Env) (clock : List (ℚ × ℚ)),
      (ticks env clock driftingComponent).el.rotation = none
      ∧ (ticks env clock driftingComponent).velocity.x = 13 / 2 := by
    intro env clock
    have h := ticks_keeps env clock driftingComponent Axis.x
      (by rw [hdr]; decide) (by rw [hdr]; decide)
    have hv : driftingComponent.velocity = ⟨13 / 2, 0, 0⟩ := by rw [hdr]
    refine ⟨h.2.2.1.trans (by rw [hdr]), ?_⟩
    have hx : (ticks env clock driftingComponent).velocity.get Axis.x
        = driftingComponent.velocity.get Axis.x := h.2.2.2
    rw [hv] at hx
    exact hx
  refine ⟨by rw [hacc], by rw [hacc]; rfl, by rw [hdr], by rw [hdr]; rfl, by rw [hdr], ?_,
    fun env clock => (hkeep env clock).2, ?_⟩
  · intro name
    rw [hdr]
    simp only [Keys.truthy_cons, Keys.truthy_nil, ite_self]
  · intro env clock dateNow time hle
    obtain ⟨hrot, hvx⟩ := hkeep env (clock ++ [(dateNow, time)])
    have hstep : ticks env (clock ++ [(dateNow, time)]) driftingComponent
        = tick env dateNow time (ticks env clock driftingComponent) := by
      rw [ticks_append]; rfl
    rw [hstep] at hvx
    have hrot0 := (hkeep env clock).1
    generalize ticks env clock driftingComponent = s at hle hvx hrot0 ⊢
    have hpos : (tick env dateNow time s).el.position.x
        = s.el.position.x + 13 / 2 * elapsed s dateNow time := by
      have hmv : movementVector env s time (elapsed s dateNow time)
          = (nextVelocity s (elapsed s dateNow time)).multiplyScalar
              (elapsed s dateNow time) := by
        simp only [movementVector, getMovementVector, hrot0]
      have hnv : (nextVelocity s (elapsed s dateNow time)).x = 13 / 2 := by
        rw [← tick_velocity_of_le env s dateNow time hle]; exact hvx
      rw [tick, update_of_not_guard env none dateNow time s rfl hle, hmv]
      simp only [Vector3.multiplyScalar, hnv]
    refine ⟨hpos, fun hne => ?_⟩
    rw [hpos]
    intro h
    have h0 : (13 / 2 : ℚ) * elapsed s dateNow time = 0 := by linarith
    rcases mul_eq_zero.mp h0 with h13 | he
    · norm_num at h13
    · exact hne he

/-- The amended C20 evaluated: three ticks after the change, `16` ms apart, the `x` velocity of
`driftingComponent` is still `6.5`; and a tick `16` ms after the change moves the position
along `x` from `0.65` by `6.5 * 0.016`. -/
theorem velocity_left_on_old_axis_witness :
    (ticks sampleEnv (fixedClock 1700000000116 1116 16 3) driftingComponent).velocity.x
        = 13 / 2
    ∧ (tick sampleEnv 1700000000132 1132 driftingComponent).el.position.x
        = 13 / 20 + 13 / 2 * (2 / 125) := by
  have he : elapsed driftingComponent 1700000000132 1132 = 2 / 125 := by
    rw [driftingComponent_eq]
    norm_num [elapsed, prevTimeOr]
  have hle : elapsed (ticks sampleEnv [] driftingComponent) 1700000000132 1132
      ≤ MAX_DELTA := by
    show elapsed driftingComponent 1700000000132 1132 ≤ MAX_DELTA
    rw [he]; norm_num [MAX_DELTA]
  have hp : driftingComponent.el.position.x = 13 / 20 := by rw [driftingComponent_eq]
  have h := (velocity_left_on_old_axis.2.2.2.2.2.2.2 sampleEnv [] 1700000000132 1132 hle).1
  have h' : (tick sampleEnv 1700000000132 1132 driftingComponent).el.position.x
      = driftingComponent.el.position.x
        + 13 / 2 * elapsed driftingComponent 1700000000132 1132 := h
  rw [he, hp] at h'
  exact ⟨velocity_left_on_old_axis.2.2.2.2.2.2.1 sampleEnv _, h'⟩

end WasdControls
